import Mathlib

/-!
Verification development for the `accounting_erp` core of the muhasip
repository: the chart-of-accounts engine (`managers/account_manager.py`),
the journal engine (`managers/journal_manager.py`) and the reporting
engine (`managers/report_manager.py`), shallowly embedded over an explicit
database state.

Modelling conventions, fixed once for the whole file:

* Monetary amounts are `ℚ`.  The Python code computes on floats; all
  claims under study are exact-arithmetic properties (sign conventions,
  balancing, the `0.01` tolerance), for which `ℚ` is the standard
  idealisation.  Dates are day ordinals in `ℤ`.
* The storage collaborator (`managers/database_manager.py`) is modelled as
  typed CRUD over lists of records, with the UNIQUE constraints of the
  operative schema: `accounts.code` and `journal_entries.entry_number`
  (see `src/accounting_erp/tests/test_journal_manager.py` /
  `test_account_manager.py`, whose schema is the one the managers actually
  run against; the production `database/schema.py` declares
  `CHECK (debit > 0 XOR credit > 0)`, which is not SQLite syntax, so that
  schema cannot be created as written).  That operative schema has no
  foreign-key clauses and no triggers, so none are modelled.
* SQLite `ORDER BY <text> DESC LIMIT 1` is a maximum under BINARY
  (byte-lexicographic) collation, modelled by `strLtB` / `sqlMaxCode`.
* `rowid` assignment is modelled by the `nextAccountId` / `nextEntryId`
  counters of the state.
* Python's `int(...)` on the digit strings handled here is modelled by
  `digitsToNat?`; a raised `ValueError` is `none`, which the managers'
  `except` blocks turn into the documented failure result.
-/

namespace Muhasip

/- Batteries marks the `Rat` field operations `@[irreducible]`, which blocks
`decide`-style evaluation of the model on concrete states; restoring the
default reducibility only re-enables unfolding of their ordinary
definitions. -/
set_option allowUnsafeReducibility true in
attribute [semireducible] Rat.add Rat.sub Rat.mul Rat.inv Rat.div Rat.ofScientific


/-- Byte-lexicographic (SQLite BINARY collation) strict comparison on
character lists. -/
def strLtB : List Char → List Char → Bool
  | [], [] => false
  | [], _ :: _ => true
  | _ :: _, [] => false
  | a :: as, b :: bs =>
    if a.toNat < b.toNat then true
    else if b.toNat < a.toNat then false
    else strLtB as bs

/-- The row selected by `ORDER BY code DESC LIMIT 1`: the maximum code
under BINARY collation, or `none` on an empty result set. -/
def sqlMaxCode (codes : List String) : Option String :=
  codes.foldl
    (fun acc c =>
      match acc with
      | none => some c
      | some m => if strLtB m.data c.data then some c else some m)
    none

/-- Value of a decimal digit character, `none` otherwise. -/
def charDigit? (c : Char) : Option Nat :=
  if 48 ≤ c.toNat ∧ c.toNat ≤ 57 then some (c.toNat - 48) else none

/-- Python `int(...)` on the (all-digit) strings this code base feeds it:
`none` models the `ValueError` raised on empty or non-digit input. -/
def digitsToNat? (cs : List Char) : Option Nat :=
  cs.foldl
    (fun acc c =>
      match acc, charDigit? c with
      | some n, some d => some (n * 10 + d)
      | _, _ => none)
    (if cs.isEmpty then none else some 0)

/-- Python `f"{n:0wd}"`: decimal rendering left-padded with zeros to
width `w` (never truncating). -/
def zeroPad (w : Nat) (n : Nat) : String :=
  let ds := (Nat.repr n).data
  String.mk (List.replicate (w - ds.length) '0' ++ ds)

/-- Python `s[-2:]`: the last two characters (or the whole string when
shorter). -/
def lastTwo (s : String) : String :=
  String.mk ((s.data.reverse.take 2).reverse)

/-- Python `s.split('-')[-1]`: the suffix after the last dash (the whole
string when no dash occurs). -/
def afterLastDash (s : String) : String :=
  String.mk ((s.data.reverse.takeWhile (fun c => !(c == '-'))).reverse)

/-- A row of the `accounts` table (the columns the managers under study
read or write). -/
structure Account where
  id : Nat
  parent_id : Option Nat
  code : String
  name_ar : String
  name_en : String
  account_type : String
  account_category : String
  level : Nat
  full_path : String
  is_active : Bool
  opening_balance : ℚ
  current_balance : ℚ
deriving DecidableEq

/-- A row of the `journal_entries` table. -/
structure JournalEntry where
  id : Nat
  entry_number : String
  date : Int
  description : String
  fiscal_year_id : Nat
  total_debit : ℚ
  total_credit : ℚ
  status : String
deriving DecidableEq

/-- A row of the `journal_lines` table. -/
structure JournalLine where
  entry_id : Nat
  account_id : Nat
  line_number : Nat
  description : String
  debit : ℚ
  credit : ℚ
deriving DecidableEq

/-- A row of the `fiscal_years` table (the columns `journal_manager.py`
reads). -/
structure FiscalYear where
  id : Nat
  start_date : Int
  end_date : Int
deriving DecidableEq

/-- The database state the managers operate on. -/
structure State where
  accounts : List Account
  entries : List JournalEntry
  lines : List JournalLine
  fiscal_years : List FiscalYear
  nextAccountId : Nat
  nextEntryId : Nat
deriving DecidableEq

/-- An empty database (fresh autoincrement counters), with a given
`fiscal_years` table. -/
def State.init (fys : List FiscalYear) : State :=
  { accounts := [], entries := [], lines := [], fiscal_years := fys,
    nextAccountId := 1, nextEntryId := 1 }

/-- `AccountManager.get_account_by_id` /
`db_manager.get_record_by_id("accounts", id)`. -/
def get_account_by_id (s : State) (aid : Nat) : Option Account :=
  s.accounts.find? (fun a => a.id == aid)

/-- `AccountManager.get_child_accounts` with the default
`include_inactive=False` (the only form the code paths under study use). -/
def get_child_accounts (s : State) (pid : Nat) : List Account :=
  s.accounts.filter (fun a => a.parent_id == some pid && a.is_active)

/-- `AccountManager._validate_name_uniqueness`: no active account with the
same `parent_id` (or both roots) and the same `name_ar`. -/
def validate_name_uniqueness (s : State) (parent_id : Option Nat) (name_ar : String) : Bool :=
  !(s.accounts.any (fun a => a.parent_id == parent_id && a.name_ar == name_ar && a.is_active))

/-- `AccountManager.validate_account_hierarchy`. -/
def validate_account_hierarchy (s : State) (parent_id : Nat) (account_type : String) : Bool :=
  match get_account_by_id s parent_id with
  | none => false
  | some parent =>
    if parent.account_type == "analytic" then false
    else if parent.account_type == "assistant" && !(account_type == "analytic") then false
    else if 9 ≤ parent.level then false
    else true

/-- `AccountManager._validate_account_inputs`. -/
def validate_account_inputs (s : State) (parent_id : Option Nat)
    (name_ar name_en account_type account_category : String) : Bool :=
  if name_ar == "" || name_en == "" then false
  else if !(account_type == "general" || account_type == "assistant"
      || account_type == "analytic") then false
  else if !(account_category == "asset" || account_category == "liability"
      || account_category == "expense" || account_category == "revenue"
      || account_category == "equity") then false
  else
    match parent_id with
    | some pid =>
      match get_account_by_id s pid with
      | none => false
      | some _ =>
        if !validate_account_hierarchy s pid account_type then false
        else validate_name_uniqueness s parent_id name_ar
    | none => validate_name_uniqueness s none name_ar

/-- `AccountManager.generate_account_code`.  Root level: Python
`int(<max code>) + 1` as a string, starting at `"1"`.  Non-root: the last
active child's last two digits incremented, zero-padded to two digits and
appended to the parent's code; `none` past 99 siblings or when `int(...)`
raises. -/
def generate_account_code (s : State) (parent_id : Option Nat) : Option String :=
  match parent_id with
  | some pid =>
    match get_account_by_id s pid with
    | none => none
    | some parent =>
      let newNumber? :=
        match sqlMaxCode ((get_child_accounts s pid).map Account.code) with
        | some lastCode => (digitsToNat? (lastTwo lastCode).data).map (fun n => n + 1)
        | none => some 1
      match newNumber? with
      | none => none
      | some newNumber =>
        let newCode :=
          if parent.level == 0 then Nat.repr newNumber
          else parent.code ++ zeroPad 2 newNumber
        if 99 < newNumber then none else some newCode
  | none =>
    match sqlMaxCode ((s.accounts.filter
        (fun a => a.parent_id == none && a.is_active)).map Account.code) with
    | some lastCode => (digitsToNat? lastCode.data).map (fun n => Nat.repr (n + 1))
    | none => some "1"

/-- `AccountManager._get_account_level`. -/
def get_account_level (s : State) (parent_id : Option Nat) : Nat :=
  match parent_id with
  | none => 1
  | some pid =>
    match get_account_by_id s pid with
    | some p => p.level + 1
    | none => 1

/-- `AccountManager._generate_full_path`. -/
def generate_full_path (s : State) (parent_id : Option Nat) (name_ar : String) : String :=
  match parent_id with
  | none => name_ar
  | some pid =>
    match get_account_by_id s pid with
    | some p => if p.full_path == "" then name_ar else p.full_path ++ " > " ++ name_ar
    | none => name_ar

/-- `AccountManager.add_account`: validates inputs, generates the code,
and inserts the account row (`is_active` defaults to 1,
`current_balance = opening_balance`).  The insert fails — `None`, nothing
persisted — when the generated code collides with an existing row
(`accounts.code` UNIQUE). -/
def add_account (s : State) (parent_id : Option Nat)
    (name_ar name_en account_type account_category : String)
    (opening_balance : ℚ) : Option Nat × State :=
  if !validate_account_inputs s parent_id name_ar name_en account_type account_category then
    (none, s)
  else
    match generate_account_code s parent_id with
    | none => (none, s)
    | some code =>
      if s.accounts.any (fun a => a.code == code) then (none, s)
      else
        let account : Account :=
          { id := s.nextAccountId, parent_id := parent_id, code := code,
            name_ar := name_ar, name_en := name_en,
            account_type := account_type, account_category := account_category,
            level := get_account_level s parent_id,
            full_path := generate_full_path s parent_id name_ar,
            is_active := true,
            opening_balance := opening_balance, current_balance := opening_balance }
        (some s.nextAccountId,
          { s with accounts := s.accounts ++ [account],
                   nextAccountId := s.nextAccountId + 1 })

/-- `AccountManager._has_journal_entries`: some `journal_lines` row
references the account. -/
def has_journal_entries (s : State) (aid : Nat) : Bool :=
  s.lines.any (fun l => l.account_id == aid)

/-- `AccountManager._validate_account_deletion`: no active children and no
referencing journal lines. -/
def validate_account_deletion (s : State) (aid : Nat) : Bool :=
  if !(get_child_accounts s aid).isEmpty then false
  else if has_journal_entries s aid then false
  else true

/-- `AccountManager.delete_account`, with an explicit recursion budget.
The Python recursion descends the `parent_id` forest (force-deleting the
active children first, computed once, each recursive call seeing the
updated state); on such a forest the depth is bounded by the number of
accounts, so `delete_account` below passes fuel that can never run out. -/
def delete_account_fuel : Nat → State → Nat → Bool → Bool × State
  | 0, s, _, _ => (false, s)
  | Nat.succ fuel, s, aid, force =>
    match get_account_by_id s aid with
    | none => (false, s)
    | some _ =>
      if !force && !validate_account_deletion s aid then (false, s)
      else if has_journal_entries s aid && !force then (false, s)
      else
        let s1 :=
          if force then
            (get_child_accounts s aid).foldl
              (fun st child => (delete_account_fuel fuel st child.id true).2) s
          else s
        let affected := s1.accounts.any (fun a => a.id == aid)
        (affected, { s1 with accounts := s1.accounts.filter (fun a => !(a.id == aid)) })

/-- `AccountManager.delete_account` (entry point). -/
def delete_account (s : State) (aid : Nat) (force : Bool) : Bool × State :=
  delete_account_fuel (s.accounts.length + 1) s aid force

/-- One element of the `lines` list handed to
`JournalManager.create_entry` / `validate_entry` (the dict keys the code
reads; `line.get('debit', 0)` defaults are the caller's explicit fields
here). -/
structure LineInput where
  account_id : Nat
  description : String
  debit : ℚ
  credit : ℚ
deriving DecidableEq

/-- `JournalManager._calculate_entry_totals`. -/
def calculate_entry_totals (lines : List LineInput) : ℚ × ℚ :=
  ((lines.map LineInput.debit).sum, (lines.map LineInput.credit).sum)

/-- `JournalManager._validate_journal_line` (the `valid` field of its
result). -/
def validate_journal_line (s : State) (line : LineInput) : Bool :=
  match get_account_by_id s line.account_id with
  | none => false
  | some account =>
    if !account.is_active then false
    else if line.debit < 0 ∨ line.credit < 0 then false
    else if 0 < line.debit ∧ 0 < line.credit then false
    else if line.debit = 0 ∧ line.credit = 0 then false
    else true

/-- `JournalManager.validate_entry` (the `valid` field of its result):
at least two lines, `|total debit − total credit| ≤ 0.01`, and every line
individually valid. -/
def validate_entry (s : State) (lines : List LineInput) : Bool :=
  if lines.length < 2 then false
  else
    let totals := calculate_entry_totals lines
    if 1 / 100 < |totals.1 - totals.2| then false
    else lines.all (fun l => validate_journal_line s l)

/-- `JournalManager.generate_entry_number`: suffix of the entry with the
greatest `id` in the fiscal year (`ORDER BY id DESC LIMIT 1`),
incremented, as `JE-` plus six zero-padded digits.  `"JE-time"` stands for
the timestamp fallback taken when `int(...)` raises; it is unreachable
here because every stored entry number parses. -/
def generate_entry_number (s : State) (fiscal_year_id : Nat) : String :=
  let last? :=
    (s.entries.filter (fun e => e.fiscal_year_id == fiscal_year_id)).foldl
      (fun acc e =>
        match acc with
        | none => some e
        | some m => if m.id < e.id then some e else some m)
      none
  match last? with
  | none => "JE-" ++ zeroPad 6 1
  | some last =>
    match digitsToNat? (afterLastDash last.entry_number).data with
    | some n => "JE-" ++ zeroPad 6 (n + 1)
    | none => "JE-time"

/-- `JournalManager.create_entry`: validates, then inserts the entry
(status `draft`, cached totals) and its lines (`line_number` = 1-based
input position) in one transaction.  The transaction fails as a whole —
`None`, nothing persisted — when the generated number collides with an
existing row (`journal_entries.entry_number` UNIQUE). -/
def create_entry (s : State) (entry_date : Int) (description : String)
    (lines : List LineInput) (fiscal_year_id : Nat) : Option Nat × State :=
  if !validate_entry s lines then (none, s)
  else
    let entry_number := generate_entry_number s fiscal_year_id
    let totals := calculate_entry_totals lines
    if s.entries.any (fun e => e.entry_number == entry_number) then (none, s)
    else
      let eid := s.nextEntryId
      let entry : JournalEntry :=
        { id := eid, entry_number := entry_number, date := entry_date,
          description := description, fiscal_year_id := fiscal_year_id,
          total_debit := totals.1, total_credit := totals.2, status := "draft" }
      let newLines := lines.enum.map (fun p =>
        { entry_id := eid, account_id := p.2.account_id, line_number := p.1 + 1,
          description := p.2.description, debit := p.2.debit,
          credit := p.2.credit : JournalLine })
      (some eid,
        { s with entries := s.entries ++ [entry], lines := s.lines ++ newLines,
                 nextEntryId := eid + 1 })

/-- `JournalManager.get_entry_details` (the `journal_entries` columns;
the query's LEFT JOINs only add display names). -/
def get_entry_details (s : State) (eid : Nat) : Option JournalEntry :=
  s.entries.find? (fun e => e.id == eid)

/-- `JournalManager.get_entry_lines`: the entry's lines INNER-joined with
`accounts` (a line whose account row is gone drops out), ordered by
`line_number`. -/
def get_entry_lines (s : State) (eid : Nat) : List JournalLine :=
  List.insertionSort (fun l1 l2 => l1.line_number ≤ l2.line_number)
    (s.lines.filter (fun l =>
      l.entry_id == eid && s.accounts.any (fun a => a.id == l.account_id)))

/-- The `**kwargs` dict of `JournalManager.update_entry`, restricted to
the `journal_entries` columns modelled here (`none` = key absent). -/
structure EntryUpdate where
  date : Option Int
  description : Option String
  fiscal_year_id : Option Nat
  status : Option String
  total_debit : Option ℚ
  total_credit : Option ℚ
deriving DecidableEq

/-- The empty `**kwargs` dict. -/
def EntryUpdate.empty : EntryUpdate :=
  { date := none, description := none, fiscal_year_id := none,
    status := none, total_debit := none, total_credit := none }

/-- Whether the `**kwargs` dict is empty (an empty dict makes
`update_record` emit malformed SQL, whose error `update_entry` turns into
`False`). -/
def EntryUpdate.isEmpty (u : EntryUpdate) : Bool :=
  u.date == none && u.description == none && u.fiscal_year_id == none
    && u.status == none && u.total_debit == none && u.total_credit == none

/-- `db_manager.update_record("journal_entries", kwargs, ...)` applied to
one row: each present key overwrites the column. -/
def applyEntryUpdate (e : JournalEntry) (u : EntryUpdate) : JournalEntry :=
  { e with
    date := u.date.getD e.date,
    description := u.description.getD e.description,
    fiscal_year_id := u.fiscal_year_id.getD e.fiscal_year_id,
    status := u.status.getD e.status,
    total_debit := u.total_debit.getD e.total_debit,
    total_credit := u.total_credit.getD e.total_credit }

/-- `JournalManager._validate_entry_update`: `fiscal_year_id` may not
change when lines exist; a new `date` must lie within the entry's fiscal
year range (when that fiscal-year row exists). -/
def validate_entry_update (s : State) (eid : Nat) (u : EntryUpdate) : Bool :=
  (match u.fiscal_year_id with
   | some _ => (get_entry_lines s eid).isEmpty
   | none => true)
  &&
  (match u.date with
   | some d =>
     match get_entry_details s eid with
     | none => true
     | some e =>
       match s.fiscal_years.find? (fun fy => fy.id == e.fiscal_year_id) with
       | none => true
       | some fy => decide (fy.start_date ≤ d ∧ d ≤ fy.end_date)
   | none => true)

/-- `JournalManager.update_entry`: only non-posted, non-approved entries;
after `_validate_entry_update`, the supplied fields are written as-is. -/
def update_entry (s : State) (eid : Nat) (u : EntryUpdate) : Bool × State :=
  match get_entry_details s eid with
  | none => (false, s)
  | some current =>
    if current.status == "posted" || current.status == "approved" then (false, s)
    else if !validate_entry_update s eid u then (false, s)
    else if u.isEmpty then (false, s)
    else
      (true,
        { s with entries :=
            s.entries.map (fun e => if e.id == eid then applyEntryUpdate e u else e) })

/-- `JournalManager.delete_entry`: only non-posted, non-approved entries;
deletes the lines and the entry in one transaction. -/
def delete_entry (s : State) (eid : Nat) : Bool × State :=
  match get_entry_details s eid with
  | none => (false, s)
  | some entry =>
    if entry.status == "posted" || entry.status == "approved" then (false, s)
    else
      (true,
        { s with lines := s.lines.filter (fun l => !(l.entry_id == eid)),
                 entries := s.entries.filter (fun e => !(e.id == eid)) })

/-- The loop body of `JournalManager._update_account_balances`: walk the
entry's lines, look each account up in the evolving `accounts` table
(missing account: `continue`), and rewrite its `current_balance` by the
category sign convention.  `failAt = some k` injects a storage failure at
the k-th (0-based) balance write — each write is its own
`db_manager.update_record` transaction, and a raised `DatabaseError` is
caught by the method's `except`, which returns `False` with the earlier
writes already committed.  `failAt = none` is the failure-free run. -/
def applyBalanceLines (failAt : Option Nat) :
    Nat → List Account → List JournalLine → Bool × List Account
  | _, accs, [] => (true, accs)
  | k, accs, l :: ls =>
    match accs.find? (fun a => a.id == l.account_id) with
    | none => applyBalanceLines failAt k accs ls
    | some account =>
      if failAt == some k then (false, accs)
      else
        let nb :=
          if account.account_category == "asset" || account.account_category == "expense"
          then account.current_balance + l.debit - l.credit
          else account.current_balance - l.debit + l.credit
        applyBalanceLines failAt (k + 1)
          (accs.map (fun a =>
            if a.id == l.account_id then { a with current_balance := nb } else a))
          ls

/-- `JournalManager._update_account_balances`, with the storage-failure
oracle threaded through (see `applyBalanceLines`). -/
def update_account_balances_flt (failAt : Option Nat) (s : State) (eid : Nat) :
    Bool × State :=
  let r := applyBalanceLines failAt 0 s.accounts (get_entry_lines s eid)
  (r.1, { s with accounts := r.2 })

/-- `JournalManager._update_account_balances` (failure-free run). -/
def update_account_balances (s : State) (eid : Nat) : Bool × State :=
  update_account_balances_flt none s eid

/-- `JournalManager.post_entry` with the storage-failure oracle: draft
check, then the per-line balance writes, then the status write — three
separate storage interactions, not one transaction; a failed balance
write aborts with the earlier writes kept. -/
def post_entry_flt (failAt : Option Nat) (s : State) (eid : Nat)
    (_posted_by : Nat) : Bool × State :=
  match get_entry_details s eid with
  | none => (false, s)
  | some entry =>
    if !(entry.status == "draft") then (false, s)
    else
      let r := update_account_balances_flt failAt s eid
      if !r.1 then (false, r.2)
      else
        (true,
          { r.2 with entries :=
              r.2.entries.map (fun e =>
                if e.id == eid then { e with status := "posted" } else e) })

/-- `JournalManager.post_entry` (failure-free run). -/
def post_entry (s : State) (eid : Nat) (posted_by : Nat) : Bool × State :=
  post_entry_flt none s eid posted_by

/-- `JournalManager.approve_entry`: `posted → approved` only, no balance
side effect. -/
def approve_entry (s : State) (eid : Nat) (_approved_by : Nat) : Bool × State :=
  match get_entry_details s eid with
  | none => (false, s)
  | some entry =>
    if !(entry.status == "posted") then (false, s)
    else
      (true,
        { s with entries :=
            s.entries.map (fun e =>
              if e.id == eid then { e with status := "approved" } else e) })

/-- `ReportManager.get_account_opening_balance`: the raw
`opening_balance` column when no date is given; otherwise the
opening balance folded with all posted activity strictly before the date
(positive parts only, per the `CASE WHEN` in the query), through the
category sign convention. -/
def get_account_opening_balance (s : State) (aid : Nat) (as_of : Option Int) : ℚ :=
  match as_of with
  | none =>
    match get_account_by_id s aid with
    | some a => a.opening_balance
    | none => 0
  | some d =>
    let ls := s.lines.filter (fun l =>
      l.account_id == aid &&
        (match s.entries.find? (fun e => e.id == l.entry_id) with
         | some e => e.status == "posted" && decide (e.date < d)
         | none => false))
    let total_debit := (ls.map (fun l => if 0 < l.debit then l.debit else 0)).sum
    let total_credit := (ls.map (fun l => if 0 < l.credit then l.credit else 0)).sum
    match get_account_by_id s aid with
    | some a =>
      if a.account_category == "asset" || a.account_category == "expense"
      then a.opening_balance + total_debit - total_credit
      else a.opening_balance - total_debit + total_credit
    | none => 0

/-- A row of `ReportManager.get_ledger`'s result (the columns the claims
read). -/
structure LedgerRow where
  entry_number : Option String
  date : Int
  line_description : String
  debit : ℚ
  credit : ℚ
  status : String
  running_balance : ℚ
deriving DecidableEq

/-- `ORDER BY je.date, je.entry_number` as a Boolean total preorder on
the joined (line, entry) rows; the SQL sort is stable, matched by
`List.insertionSort`. -/
def ledgerLe (x y : JournalLine × JournalEntry) : Bool :=
  if x.2.date < y.2.date then true
  else if y.2.date < x.2.date then false
  else !(strLtB y.2.entry_number.data x.2.entry_number.data)

/-- The running-balance walk of `ReportManager.get_ledger`: debit lines
move the balance by `+debit` on asset/expense accounts and `−debit`
otherwise; non-debit lines by `−credit` resp. `+credit`. -/
def ledgerRows (cat : String) : ℚ → List (JournalLine × JournalEntry) → List LedgerRow
  | _, [] => []
  | b, (l, e) :: ts =>
    let debitSide := cat == "asset" || cat == "expense"
    let b1 :=
      if 0 < l.debit then (if debitSide then b + l.debit else b - l.debit)
      else (if debitSide then b - l.credit else b + l.credit)
    { entry_number := some e.entry_number, date := e.date,
      line_description := l.description, debit := l.debit, credit := l.credit,
      status := e.status, running_balance := b1 } :: ledgerRows cat b1 ts

/-- `ReportManager.get_ledger`: the account's posted lines within the
date window (INNER JOIN with `journal_entries`, `je.status = 'posted'`),
ordered by date then entry number, walked with a running balance seeded
from `get_account_opening_balance`; a synthetic opening row is prepended
when that opening balance is nonzero (its `date` placeholder stands for
`start_date or created_at`, which no claim reads). -/
def get_ledger (s : State) (aid : Nat) (start_date end_date : Option Int) :
    List LedgerRow :=
  match get_account_by_id s aid with
  | none => []
  | some account =>
    let txns := s.lines.filterMap (fun l =>
      if l.account_id == aid then
        match s.entries.find? (fun e => e.id == l.entry_id) with
        | some e =>
          if e.status == "posted"
              && (match start_date with | some d => decide (d ≤ e.date) | none => true)
              && (match end_date with | some d => decide (e.date ≤ d) | none => true)
          then some (l, e) else none
        | none => none
      else none)
    let sorted := List.insertionSort (fun x y => ledgerLe x y = true) txns
    let opening := get_account_opening_balance s aid start_date
    let rows := ledgerRows account.account_category opening sorted
    if opening = 0 then rows
    else
      { entry_number := none, date := start_date.getD 0,
        line_description := "Opening Balance",
        debit := if 0 < opening then opening else 0,
        credit := if opening < 0 then |opening| else 0,
        status := "opening_balance", running_balance := opening } :: rows

/-- A row of `ReportManager.get_trial_balance`'s result. -/
structure TrialRow where
  code : Option String
  account_category : Option String
  opening_balance : ℚ
  period_debit : ℚ
  period_credit : ℚ
  closing_balance : ℚ
  trial_debit : ℚ
  trial_credit : ℚ
deriving DecidableEq

/-- The joined `journal_lines` rows that survive `get_trial_balance`'s
FROM/WHERE for one account.  With no fiscal-year filter the
`je.status = 'posted'` condition sits on the second LEFT JOIN and filters
nothing: every line of the account is summed, whatever its entry's
status.  With a fiscal-year filter, `WHERE je.fiscal_year_id = ?` keeps
only lines whose joined entry matched (posted, in that fiscal year). -/
def trialLinesFor (s : State) (aid : Nat) (fy : Option Nat) : List JournalLine :=
  match fy with
  | none => s.lines.filter (fun l => l.account_id == aid)
  | some y =>
    s.lines.filter (fun l =>
      l.account_id == aid &&
        (match s.entries.find? (fun e => e.id == l.entry_id) with
         | some e => e.status == "posted" && e.fiscal_year_id == y
         | none => false))

/-- One account's row of `ReportManager.get_trial_balance`: period sums,
closing balance by the category sign convention, then the debit/credit
split by the sign of the closing balance. -/
def trialRowFor (s : State) (a : Account) (fy : Option Nat) : TrialRow :=
  let ls := trialLinesFor s a.id fy
  let pd := (ls.map JournalLine.debit).sum
  let pc := (ls.map JournalLine.credit).sum
  let debitSide := a.account_category == "asset" || a.account_category == "expense"
  let closing := if debitSide then a.opening_balance + pd - pc
                 else a.opening_balance - pd + pc
  let td := if 0 ≤ closing then (if debitSide then closing else 0)
            else (if debitSide then 0 else |closing|)
  let tc := if 0 ≤ closing then (if debitSide then 0 else closing)
            else (if debitSide then |closing| else 0)
  { code := some a.code, account_category := some a.account_category,
    opening_balance := a.opening_balance, period_debit := pd, period_credit := pc,
    closing_balance := closing, trial_debit := td, trial_credit := tc }

/-- `ReportManager.get_trial_balance`: one row per active account
(`HAVING a.is_active = 1`; with a fiscal-year filter, only accounts with
at least one surviving joined row), ordered by code, plus the appended
totals row carrying `sum(trial_debit)` and `sum(trial_credit)`. -/
def get_trial_balance (s : State) (fy : Option Nat) : List TrialRow :=
  let active := List.insertionSort (fun a b : Account => !(strLtB b.code.data a.code.data) = true)
    (s.accounts.filter (fun a => a.is_active))
  let included :=
    match fy with
    | none => active
    | some _ => active.filter (fun a => !(trialLinesFor s a.id fy).isEmpty)
  let body := included.map (fun a => trialRowFor s a fy)
  body ++
    [{ code := none, account_category := none, opening_balance := 0,
       period_debit := 0, period_credit := 0, closing_balance := 0,
       trial_debit := (body.map TrialRow.trial_debit).sum,
       trial_credit := (body.map TrialRow.trial_credit).sum }]

/-- States reachable from an empty database through the public API calls
the claims quantify over: `add_account`, `create_entry` and `post_entry`
(failure-free storage), in any order, successful or not (a failed call
leaves the state unchanged). -/
inductive Reach : State → Prop
  | init (fys : List FiscalYear) : Reach (State.init fys)
  | add (s : State) (parent_id : Option Nat)
      (name_ar name_en account_type account_category : String) (ob : ℚ) :
      Reach s →
      Reach (add_account s parent_id name_ar name_en account_type account_category ob).2
  | create (s : State) (d : Int) (desc : String) (ls : List LineInput) (fy : Nat) :
      Reach s → Reach (create_entry s d desc ls fy).2
  | post (s : State) (eid pb : Nat) :
      Reach s → Reach (post_entry s eid pb).2

/-- Whether a journal line's owning entry is currently `posted`. -/
def isPostedLine (s : State) (l : JournalLine) : Bool :=
  match s.entries.find? (fun e => e.id == l.entry_id) with
  | some e => e.status == "posted"
  | none => false

/-- The signed balance contribution of one line to one account under the
posting sign convention of `_update_account_balances`. -/
def accountDelta (a : Account) (l : JournalLine) : ℚ :=
  if a.account_category == "asset" || a.account_category == "expense"
  then l.debit - l.credit else l.credit - l.debit

/-- Total posted activity of an account, signed by its category: the
value `current_balance` is meant to cache on top of `opening_balance`. -/
def postedSum (s : State) (a : Account) : ℚ :=
  ((s.lines.filter (fun l => l.account_id == a.id && isPostedLine s l)).map
    (accountDelta a)).sum

/-- The signed balance contribution of one ledger transaction in
`get_ledger`'s running-balance walk. -/
def ledgerDelta (cat : String) (l : JournalLine) : ℚ :=
  let debitSide := cat == "asset" || cat == "expense"
  if 0 < l.debit then (if debitSide then l.debit else -l.debit)
  else (if debitSide then -l.credit else l.credit)

/-- An account's opening balance signed the way it enters the trial
balance: positive on the debit side (asset/expense), negative otherwise. -/
def signedOpening (a : Account) : ℚ :=
  if a.account_category == "asset" || a.account_category == "expense"
  then a.opening_balance else -a.opening_balance

/-- The update `applyBalanceLines` performs on the whole accounts table
when no write fails: every account's balance moves by the summed deltas
of the lines that reference it. -/
def bumpAll (ls : List JournalLine) (accs : List Account) : List Account :=
  accs.map (fun a =>
    { a with current_balance :=
        a.current_balance + ((ls.filter (fun l => l.account_id == a.id)).map
          (accountDelta a)).sum })

/-- The structural facts every `Reach`-able state satisfies: fresh
autoincremented ids, id uniqueness, only-active accounts, referential
integrity of lines, one-sided lines, draft-or-posted statuses, and the
cache law relating `current_balance` to `opening_balance` plus posted
activity. -/
structure StateInv (s : State) : Prop where
  acc_id_lt : ∀ a ∈ s.accounts, a.id < s.nextAccountId
  acc_nodup : (s.accounts.map Account.id).Nodup
  acc_active : ∀ a ∈ s.accounts, a.is_active = true
  ent_id_lt : ∀ e ∈ s.entries, e.id < s.nextEntryId
  ent_nodup : (s.entries.map JournalEntry.id).Nodup
  line_acc : ∀ l ∈ s.lines, ∃ a ∈ s.accounts, a.id = l.account_id
  line_ent : ∀ l ∈ s.lines, ∃ e ∈ s.entries, e.id = l.entry_id
  ent_status : ∀ e ∈ s.entries, e.status = "draft" ∨ e.status = "posted"
  one_sided : ∀ l ∈ s.lines, (0 < l.debit ∧ l.credit = 0) ∨ (0 < l.credit ∧ l.debit = 0)
  bal : ∀ a ∈ s.accounts, a.current_balance = a.opening_balance + postedSum s a

/-- A fiscal year covering the example dates. -/
def fy1 : FiscalYear := { id := 1, start_date := 0, end_date := 365 }

/-- The empty example database. -/
def S0 : State := State.init [fy1]

/-- Cash (asset, opening balance 5000) created as the first root. -/
def SA1 : State := (add_account S0 none "Cash" "Cash" "general" "asset" 5000).2

/-- Revenue (revenue, opening balance 0) created as the second root. -/
def SA2 : State := (add_account SA1 none "Revenue" "Revenue" "general" "revenue" 0).2

/-- The example entry lines: debit Cash 1000, credit Revenue 1000. -/
def entryLinesA : List LineInput :=
  [{ account_id := 1, description := "", debit := 1000, credit := 0 },
   { account_id := 2, description := "", debit := 0, credit := 1000 }]

/-- The example entry created as a draft. -/
def SA3 : State := (create_entry SA2 10 "sale" entryLinesA 1).2

/-- The example entry posted. -/
def SA4 : State := (post_entry SA3 1 1).2

/-- The example entry approved. -/
def SA5 : State := (approve_entry SA4 1 1).2

/-- The Cash account row as it stands in `SA4`. -/
def cashSA4 : Account :=
  { id := 1, parent_id := none, code := "1", name_ar := "Cash", name_en := "Cash",
    account_type := "general", account_category := "asset", level := 1,
    full_path := "Cash", is_active := true,
    opening_balance := 5000, current_balance := 6000 }

/-- The Cash account row as it stands in `SA2`/`SA3` (before posting). -/
def cashSA3 : Account :=
  { id := 1, parent_id := none, code := "1", name_ar := "Cash", name_en := "Cash",
    account_type := "general", account_category := "asset", level := 1,
    full_path := "Cash", is_active := true,
    opening_balance := 5000, current_balance := 5000 }

/-- The Revenue account row as it stands in `SA2`/`SA3` (before posting). -/
def revSA3 : Account :=
  { id := 2, parent_id := none, code := "2", name_ar := "Revenue", name_en := "Revenue",
    account_type := "general", account_category := "revenue", level := 1,
    full_path := "Revenue", is_active := true,
    opening_balance := 0, current_balance := 0 }

/-- The Revenue account row as it stands in `SA4` (after posting). -/
def revSA4 : Account :=
  { revSA3 with current_balance := 1000 }

/-- The example journal entry as stored in `SA3` (draft). -/
def entrySA3 : JournalEntry :=
  { id := 1, entry_number := "JE-000001", date := 10, description := "sale",
    fiscal_year_id := 1, total_debit := 1000, total_credit := 1000, status := "draft" }

/-- The debit-Cash line of the example entry. -/
def lineCashSA3 : JournalLine :=
  { entry_id := 1, account_id := 1, line_number := 1, description := "",
    debit := 1000, credit := 0 }

/-- The credit-Revenue line of the example entry. -/
def lineRevSA3 : JournalLine :=
  { entry_id := 1, account_id := 2, line_number := 2, description := "",
    debit := 0, credit := 1000 }

/-- Same pipeline as `SA1`–`SA4` but with zero opening balances. -/
def SC1 : State := (add_account S0 none "Cash" "Cash" "general" "asset" 0).2

/-- Second zero-opening root. -/
def SC2 : State := (add_account SC1 none "Revenue" "Revenue" "general" "revenue" 0).2

/-- Zero-opening draft entry. -/
def SC3 : State := (create_entry SC2 10 "sale" entryLinesA 1).2

/-- Zero-opening posted entry. -/
def SC4 : State := (post_entry SC3 1 1).2

/-- A lone asset account with opening balance 1000 and no journal
activity. -/
def SB : State := (add_account S0 none "Cash" "Cash" "general" "asset" 1000).2

/-- A chain of nine nested `general` accounts: account `i` sits at level
`i`. -/
def B1 : State := (add_account S0 none "c1" "c1" "general" "asset" 0).2

/-- Level-2 link of the chain. -/
def B2 : State := (add_account B1 (some 1) "c2" "c2" "general" "asset" 0).2

/-- Level-3 link of the chain. -/
def B3 : State := (add_account B2 (some 2) "c3" "c3" "general" "asset" 0).2

/-- Level-4 link of the chain. -/
def B4 : State := (add_account B3 (some 3) "c4" "c4" "general" "asset" 0).2

/-- Level-5 link of the chain. -/
def B5 : State := (add_account B4 (some 4) "c5" "c5" "general" "asset" 0).2

/-- Level-6 link of the chain. -/
def B6 : State := (add_account B5 (some 5) "c6" "c6" "general" "asset" 0).2

/-- Level-7 link of the chain. -/
def B7 : State := (add_account B6 (some 6) "c7" "c7" "general" "asset" 0).2

/-- Level-8 link of the chain. -/
def B8 : State := (add_account B7 (some 7) "c8" "c8" "general" "asset" 0).2

/-- Level-9 link of the chain. -/
def B9 : State := (add_account B8 (some 8) "c9" "c9" "general" "asset" 0).2

/-- Ten root accounts created in sequence (codes `"1"` … `"10"`). -/
def T1 : State := (add_account S0 none "r01" "r01" "general" "asset" 0).2

/-- Root 2. -/
def T2 : State := (add_account T1 none "r02" "r02" "general" "asset" 0).2

/-- Root 3. -/
def T3 : State := (add_account T2 none "r03" "r03" "general" "asset" 0).2

/-- Root 4. -/
def T4 : State := (add_account T3 none "r04" "r04" "general" "asset" 0).2

/-- Root 5. -/
def T5 : State := (add_account T4 none "r05" "r05" "general" "asset" 0).2

/-- Root 6. -/
def T6 : State := (add_account T5 none "r06" "r06" "general" "asset" 0).2

/-- Root 7. -/
def T7 : State := (add_account T6 none "r07" "r07" "general" "asset" 0).2

/-- Root 8. -/
def T8 : State := (add_account T7 none "r08" "r08" "general" "asset" 0).2

/-- Root 9. -/
def T9 : State := (add_account T8 none "r09" "r09" "general" "asset" 0).2

/-- Root 10 (code `"10"`). -/
def T10 : State := (add_account T9 none "r10" "r10" "general" "asset" 0).2

/-- The root account of the `B`-chain, as stored in `B1`. -/
def c1Acc : Account :=
  { id := 1, parent_id := none, code := "1", name_ar := "c1", name_en := "c1",
    account_type := "general", account_category := "asset", level := 1,
    full_path := "c1", is_active := true, opening_balance := 0, current_balance := 0 }

/-- A database holding one `assistant` root account. -/
def SAst : State :=
  { accounts :=
      [{ id := 1, parent_id := none, code := "1", name_ar := "h", name_en := "h",
         account_type := "assistant", account_category := "asset", level := 1,
         full_path := "h", is_active := true, opening_balance := 0, current_balance := 0 }],
    entries := [], lines := [], fiscal_years := [], nextAccountId := 2, nextEntryId := 1 }

/-- A parent whose last active child already carries the 2-digit suffix
`99`. -/
def S99 : State :=
  { accounts :=
      [{ id := 1, parent_id := none, code := "1", name_ar := "p", name_en := "p",
         account_type := "general", account_category := "asset", level := 1,
         full_path := "p", is_active := true, opening_balance := 0, current_balance := 0 },
       { id := 2, parent_id := some 1, code := "199", name_ar := "q", name_en := "q",
         account_type := "analytic", account_category := "asset", level := 2,
         full_path := "p > q", is_active := true, opening_balance := 0, current_balance := 0 }],
    entries := [], lines := [], fiscal_years := [], nextAccountId := 3, nextEntryId := 1 }

/-- Splitting a mapped sum along a Boolean predicate. -/
theorem sum_filter_split {α : Type} (p : α → Bool) (f : α → ℚ) (xs : List α) :
    (xs.map f).sum
      = ((xs.filter p).map f).sum + ((xs.filter (fun x => !(p x))).map f).sum := by
  induction xs with
  | nil => simp
  | cons x xs ih =>
    cases hp : p x <;> simp [List.filter_cons, hp, ih] <;> ring

/-- A mapped sum of pointwise sums splits into two mapped sums. -/
theorem sum_map_add_distrib {α : Type} (f g : α → ℚ) (xs : List α) :
    (xs.map (fun x => f x + g x)).sum = (xs.map f).sum + (xs.map g).sum := by
  induction xs with
  | nil => simp
  | cons x xs ih => simp [ih]; ring

/-- A mapped sum of pointwise differences splits into two mapped sums. -/
theorem sum_map_sub_distrib {α : Type} (f g : α → ℚ) (xs : List α) :
    (xs.map (fun x => f x - g x)).sum = (xs.map f).sum - (xs.map g).sum := by
  induction xs with
  | nil => simp
  | cons x xs ih => simp [ih]; ring

/-- A mapped sum over a disjunctive filter splits along its disjuncts when
they never hold together. -/
theorem sum_filter_or_disjoint {α : Type} (p q : α → Bool) (f : α → ℚ) (xs : List α)
    (h : ∀ x ∈ xs, ¬(p x = true ∧ q x = true)) :
    ((xs.filter (fun x => p x || q x)).map f).sum
      = ((xs.filter p).map f).sum + ((xs.filter q).map f).sum := by
  induction xs with
  | nil => simp
  | cons x xs ih =>
    have hx := h x (List.mem_cons_self x xs)
    have ih2 := ih (fun y hy => h y (List.mem_cons_of_mem x hy))
    cases hp : p x <;> cases hq : q x
    · simp [List.filter_cons, hp, hq, ih2]
    · simp [List.filter_cons, hp, hq, ih2]; ring
    · simp [List.filter_cons, hp, hq, ih2]; ring
    · exact absurd ⟨hp, hq⟩ hx

/-- Summing per key over a covering, duplicate-free key list equals the
total sum. -/
theorem sum_map_filter_partition {α : Type} (key : α → Nat) (f : α → ℚ) :
    ∀ (ks : List Nat) (xs : List α), ks.Nodup → (∀ x ∈ xs, key x ∈ ks) →
      (ks.map (fun k => ((xs.filter (fun x => key x == k)).map f).sum)).sum
        = (xs.map f).sum := by
  intro ks
  induction ks with
  | nil =>
    intro xs _ hcov
    have hxs : xs = [] := by
      cases xs with
      | nil => rfl
      | cons y ys => exact absurd (hcov y (List.mem_cons_self y ys)) (List.not_mem_nil _)
    simp [hxs]
  | cons k ks ih =>
    intro xs hnd hcov
    have hnd2 : ks.Nodup := hnd.of_cons
    have hk : k ∉ ks := by
      have := List.nodup_cons.mp hnd
      exact this.1
    have hcov2 : ∀ x ∈ xs.filter (fun x => !(key x == k)), key x ∈ ks := by
      intro x hx
      have hmem := List.mem_of_mem_filter hx
      have hne : (key x == k) = false := by
        have := List.of_mem_filter hx
        simpa using this
      have := hcov x hmem
      rcases List.mem_cons.mp this with h1 | h1
      · exact absurd (by simpa using hne ▸ (beq_iff_eq.mpr h1)) (by simp [hne, h1])
      · exact h1
    have hfilter : ∀ k' ∈ ks,
        (xs.filter (fun x => !(key x == k))).filter (fun x => key x == k')
          = xs.filter (fun x => key x == k') := by
      intro k' hk'
      rw [List.filter_filter]
      apply List.filter_congr
      intro x _
      cases hxk : (key x == k') with
      | false => simp
      | true =>
        have : key x = k' := by simpa using hxk
        have : ¬(key x == k) = true := by
          simp only [beq_iff_eq, this]
          intro hcon
          exact hk (hcon ▸ hk')
        simp [hxk]
        simpa using this
    calc (List.map (fun k' => ((xs.filter (fun x => key x == k')).map f).sum) (k :: ks)).sum
        = ((xs.filter (fun x => key x == k)).map f).sum
            + (ks.map (fun k' => ((xs.filter (fun x => key x == k')).map f).sum)).sum := by
          simp
      _ = ((xs.filter (fun x => key x == k)).map f).sum
            + (ks.map (fun k' =>
                (((xs.filter (fun x => !(key x == k))).filter
                  (fun x => key x == k')).map f).sum)).sum := by
          congr 1
          apply congrArg
          exact (List.map_congr_left (fun k' hk' => by rw [hfilter k' hk'])).symm
      _ = ((xs.filter (fun x => key x == k)).map f).sum
            + ((xs.filter (fun x => !(key x == k))).map f).sum := by
          rw [ih (xs.filter (fun x => !(key x == k))) hnd2 hcov2]
      _ = (xs.map f).sum := (sum_filter_split (fun x => key x == k) f xs).symm

/-- Under duplicate-free keys, `find?` on a member's key returns exactly
that member. -/
theorem find?_key_of_nodup {α : Type} (key : α → Nat) (k : Nat) :
    ∀ (l : List α), (l.map key).Nodup → ∀ a ∈ l, key a = k →
      l.find? (fun x => key x == k) = some a := by
  intro l
  induction l with
  | nil => intro _ a ha; exact absurd ha (List.not_mem_nil _)
  | cons x xs ih =>
    intro hnd a ha hka
    rw [List.map_cons, List.nodup_cons] at hnd
    rcases List.mem_cons.mp ha with rfl | ha2
    · exact List.find?_cons_of_pos xs (by simp [hka])
    · have hmem : key a ∈ xs.map key := List.mem_map_of_mem key ha2
      have hne : ¬((key x == k) = true) := by
        simp only [beq_iff_eq]
        intro hcon
        have hxa : key x = key a := hcon.trans hka.symm
        exact hnd.1 (hxa ▸ hmem)
      rw [List.find?_cons_of_neg xs hne]
      exact ih hnd.2 a ha2 hka

/-- Under duplicate-free keys, filtering on a member's key returns exactly
that member. -/
theorem filter_key_single {α : Type} (key : α → Nat) :
    ∀ (l : List α), (l.map key).Nodup → ∀ a ∈ l,
      l.filter (fun x => key x == key a) = [a] := by
  intro l
  induction l with
  | nil => intro _ a ha; exact absurd ha (List.not_mem_nil _)
  | cons x xs ih =>
    intro hnd a ha
    rw [List.map_cons, List.nodup_cons] at hnd
    rcases List.mem_cons.mp ha with rfl | ha2
    · have hrest : xs.filter (fun x => key x == key a) = [] := by
        apply List.filter_eq_nil_iff.mpr
        intro y hy
        simp only [beq_iff_eq]
        intro hcon
        exact hnd.1 (hcon ▸ List.mem_map_of_mem key hy)
      simp [List.filter_cons, hrest]
    · have hne : key x ≠ key a := by
        intro hcon
        exact hnd.1 (hcon ▸ List.mem_map_of_mem key ha2)
      simp [List.filter_cons, hne, ih hnd.2 a ha2]

/-- `find?` on a key commutes with a key-preserving map. -/
theorem find?_map_key {α : Type} (g : α → α) (key : α → Nat)
    (hkey : ∀ x, key (g x) = key x) (k : Nat) (l : List α) :
    (l.map g).find? (fun x => key x == k) = (l.find? (fun x => key x == k)).map g := by
  rw [List.find?_map]
  have hfun : ((fun x => key x == k) ∘ g) = (fun x => key x == k) := by
    funext x
    simp [Function.comp, hkey]
  rw [hfun]

/-- The example pipeline state `SA1` is reachable. -/
theorem reach_SA1 : Reach SA1 :=
  Reach.add S0 none "Cash" "Cash" "general" "asset" 5000 (Reach.init [fy1])

/-- The example pipeline state `SA2` is reachable. -/
theorem reach_SA2 : Reach SA2 :=
  Reach.add SA1 none "Revenue" "Revenue" "general" "revenue" 0 reach_SA1

/-- The example pipeline state `SA3` is reachable. -/
theorem reach_SA3 : Reach SA3 :=
  Reach.create SA2 10 "sale" entryLinesA 1 reach_SA2

/-- The example pipeline state `SA4` is reachable. -/
theorem reach_SA4 : Reach SA4 :=
  Reach.post SA3 1 1 reach_SA3

/-- The zero-opening pipeline state `SC4` is reachable. -/
theorem reach_SC4 : Reach SC4 :=
  Reach.post SC3 1 1 (Reach.create SC2 10 "sale" entryLinesA 1
    (Reach.add SC1 none "Revenue" "Revenue" "general" "revenue" 0
      (Reach.add S0 none "Cash" "Cash" "general" "asset" 0 (Reach.init [fy1]))))

/-- The lone-asset state `SB` is reachable. -/
theorem reach_SB : Reach SB :=
  Reach.add S0 none "Cash" "Cash" "general" "asset" 1000 (Reach.init [fy1])

/-- The nine-deep chain state `B9` is reachable. -/
theorem reach_B9 : Reach B9 :=
  Reach.add B8 (some 8) "c9" "c9" "general" "asset" 0
    (Reach.add B7 (some 7) "c8" "c8" "general" "asset" 0
      (Reach.add B6 (some 6) "c7" "c7" "general" "asset" 0
        (Reach.add B5 (some 5) "c6" "c6" "general" "asset" 0
          (Reach.add B4 (some 4) "c5" "c5" "general" "asset" 0
            (Reach.add B3 (some 3) "c4" "c4" "general" "asset" 0
              (Reach.add B2 (some 2) "c3" "c3" "general" "asset" 0
                (Reach.add B1 (some 1) "c2" "c2" "general" "asset" 0
                  (Reach.add S0 none "c1" "c1" "general" "asset" 0
                    (Reach.init [fy1])))))))))

/-- The ten-roots state `T10` is reachable. -/
theorem reach_T10 : Reach T10 :=
  Reach.add T9 none "r10" "r10" "general" "asset" 0
    (Reach.add T8 none "r09" "r09" "general" "asset" 0
      (Reach.add T7 none "r08" "r08" "general" "asset" 0
        (Reach.add T6 none "r07" "r07" "general" "asset" 0
          (Reach.add T5 none "r06" "r06" "general" "asset" 0
            (Reach.add T4 none "r05" "r05" "general" "asset" 0
              (Reach.add T3 none "r04" "r04" "general" "asset" 0
                (Reach.add T2 none "r03" "r03" "general" "asset" 0
                  (Reach.add T1 none "r02" "r02" "general" "asset" 0
                    (Reach.add S0 none "r01" "r01" "general" "asset" 0
                      (Reach.init [fy1]))))))))))

/-- Nonnegative amounts that are neither both positive nor both zero are
one-sided. -/
theorem oneSided_of_checks {d c : ℚ} (h0 : ¬(d < 0 ∨ c < 0)) (h1 : ¬(0 < d ∧ 0 < c))
    (h2 : ¬(d = 0 ∧ c = 0)) : (0 < d ∧ c = 0) ∨ (0 < c ∧ d = 0) := by
  push_neg at h0 h1 h2
  rcases lt_or_eq_of_le h0.1 with hd | hd
  · exact Or.inl ⟨hd, le_antisymm (h1 hd) h0.2⟩
  · rcases lt_or_eq_of_le h0.2 with hc | hc
    · exact Or.inr ⟨hc, hd.symm⟩
    · exact absurd hc.symm (h2 hd.symm)

/-- What a line passing `_validate_journal_line` guarantees: an existing
active account and a one-sided, nonnegative amount pair. -/
theorem validate_journal_line_spec (s : State) (li : LineInput)
    (h : validate_journal_line s li = true) :
    ∃ a, a ∈ s.accounts ∧ a.id = li.account_id ∧ a.is_active = true ∧
      0 ≤ li.debit ∧ 0 ≤ li.credit ∧
      ((0 < li.debit ∧ li.credit = 0) ∨ (0 < li.credit ∧ li.debit = 0)) := by
  unfold validate_journal_line at h
  cases hfind : get_account_by_id s li.account_id with
  | none => rw [hfind] at h; exact absurd h (by simp)
  | some a =>
    rw [hfind] at h
    have hmem : a ∈ s.accounts := List.mem_of_find?_eq_some hfind
    have hid : a.id = li.account_id := by
      have := List.find?_some hfind
      simpa using this
    refine ⟨a, hmem, hid, ?_⟩
    replace h : (if (!a.is_active) = true then false
        else if li.debit < 0 ∨ li.credit < 0 then false
        else if 0 < li.debit ∧ 0 < li.credit then false
        else if li.debit = 0 ∧ li.credit = 0 then false
        else true) = true := h
    cases hact : a.is_active with
    | false => rw [hact] at h; exact absurd h (by simp)
    | true =>
      rw [hact] at h
      rw [if_neg (by simp)] at h
      have hv1 : ¬(li.debit < 0 ∨ li.credit < 0) := by
        intro hcon; rw [if_pos hcon] at h; exact absurd h (by simp)
      rw [if_neg hv1] at h
      have hv2 : ¬(0 < li.debit ∧ 0 < li.credit) := by
        intro hcon; rw [if_pos hcon] at h; exact absurd h (by simp)
      rw [if_neg hv2] at h
      have hv3 : ¬(li.debit = 0 ∧ li.credit = 0) := by
        intro hcon; rw [if_pos hcon] at h; exact absurd h (by simp)
      have hnn := hv1
      push_neg at hnn
      exact ⟨rfl, hnn.1, hnn.2, oneSided_of_checks hv1 hv2 hv3⟩

/-- What a line list passing `validate_entry` guarantees. -/
theorem validate_entry_spec (s : State) (lines : List LineInput)
    (h : validate_entry s lines = true) :
    2 ≤ lines.length ∧
      |(lines.map LineInput.debit).sum - (lines.map LineInput.credit).sum| ≤ 1 / 100 ∧
      ∀ li ∈ lines, validate_journal_line s li = true := by
  unfold validate_entry at h
  have h1 : ¬(lines.length < 2) := by
    intro hcon; rw [if_pos hcon] at h; exact absurd h (by simp)
  rw [if_neg h1] at h
  replace h : (if 1 / 100
        < |(calculate_entry_totals lines).1 - (calculate_entry_totals lines).2|
      then false else lines.all fun l => validate_journal_line s l) = true := h
  have h2 : ¬(1 / 100
      < |(calculate_entry_totals lines).1 - (calculate_entry_totals lines).2|) := by
    intro hcon; rw [if_pos hcon] at h; exact absurd h (by simp)
  rw [if_neg h2] at h
  refine ⟨by omega, by simpa [calculate_entry_totals] using le_of_not_lt h2, ?_⟩
  exact fun li hli => List.all_eq_true.mp h li hli

/-- C5: `create_entry` returns an id only when the lines pass
`validate_entry`; on validation failure it returns `none` with the state
untouched; and a successfully created entry carries the cached line sums
as totals, balanced within the 0.01 tolerance, with every line one-sided
against an existing active account. -/
theorem create_entry_validation_contract (s : State) (d : Int) (desc : String)
    (lines : List LineInput) (fy : Nat) :
    (validate_entry s lines = false → create_entry s d desc lines fy = (none, s)) ∧
    (∀ eid s2, create_entry s d desc lines fy = (some eid, s2) →
      validate_entry s lines = true ∧ 2 ≤ lines.length ∧
      ∃ e, e ∈ s2.entries ∧ e.id = eid ∧
        e.total_debit = (lines.map LineInput.debit).sum ∧
        e.total_credit = (lines.map LineInput.credit).sum ∧
        |e.total_debit - e.total_credit| ≤ 1 / 100 ∧
        ∀ li ∈ lines, ∃ a, a ∈ s.accounts ∧ a.id = li.account_id ∧
          a.is_active = true ∧ 0 ≤ li.debit ∧ 0 ≤ li.credit ∧
          ((0 < li.debit ∧ li.credit = 0) ∨ (0 < li.credit ∧ li.debit = 0))) := by
  constructor
  · intro hv
    simp [create_entry, hv]
  · intro eid s2 hc
    cases hv : validate_entry s lines with
    | false =>
      simp only [create_entry, hv, Bool.not_false, if_true] at hc
      exact absurd hc (by simp)
    | true =>
      obtain ⟨hlen, htol, hlines⟩ := validate_entry_spec s lines hv
      cases hdup : s.entries.any
          (fun e => e.entry_number == generate_entry_number s fy) with
      | true =>
        simp only [create_entry, hv, hdup] at hc
        exact absurd hc (by simp)
      | false =>
        simp only [create_entry, hv, hdup] at hc
        rw [Prod.mk.injEq] at hc
        obtain ⟨heid, hs2⟩ := hc
        refine ⟨rfl, hlen, ?_⟩
        refine ⟨⟨s.nextEntryId, generate_entry_number s fy, d, desc, fy,
          (calculate_entry_totals lines).1, (calculate_entry_totals lines).2,
          "draft"⟩, ?_, ?_, rfl, rfl, ?_, ?_⟩
        · rw [← hs2]
          exact List.mem_append_right _ (List.mem_singleton.mpr rfl)
        · simpa using heid
        · simpa [calculate_entry_totals] using htol
        · intro li hli
          exact validate_journal_line_spec s li (hlines li hli)

/-- The example entry creation satisfies the validation contract. -/
theorem create_entry_validation_contract_witness :
    validate_entry SA2 entryLinesA = true ∧ 2 ≤ entryLinesA.length ∧
      ∃ e, e ∈ SA3.entries ∧ e.id = 1 ∧
        e.total_debit = (entryLinesA.map LineInput.debit).sum ∧
        e.total_credit = (entryLinesA.map LineInput.credit).sum ∧
        |e.total_debit - e.total_credit| ≤ 1 / 100 ∧
        ∀ li ∈ entryLinesA, ∃ a, a ∈ SA2.accounts ∧ a.id = li.account_id ∧
          a.is_active = true ∧ 0 ≤ li.debit ∧ 0 ≤ li.credit ∧
          ((0 < li.debit ∧ li.credit = 0) ∨ (0 < li.credit ∧ li.debit = 0)) :=
  (create_entry_validation_contract SA2 10 "sale" entryLinesA 1).2 1 SA3 (by decide)

/-- `accountDelta` reads only the account's category, so a balance
rewrite does not change it. -/
theorem accountDelta_update (a : Account) (q : ℚ) :
    accountDelta { a with current_balance := q } = accountDelta a := rfl

/-- With no injected failure, the balance-update walk succeeds and moves
every account by the summed deltas of the lines referencing it. -/
theorem applyBalanceLines_none_eq_bumpAll :
    ∀ (ls : List JournalLine) (k : Nat) (accs : List Account),
      (accs.map Account.id).Nodup →
      applyBalanceLines none k accs ls = (true, bumpAll ls accs) := by
  intro ls
  induction ls with
  | nil =>
    intro k accs _
    unfold applyBalanceLines bumpAll
    have hid : (fun (a : Account) => { a with current_balance := a.current_balance
        + ((List.filter (fun l => l.account_id == a.id) []).map (accountDelta a)).sum })
        = (id : Account → Account) := by
      funext a
      rw [List.filter_nil, List.map_nil, List.sum_nil, add_zero]
      rfl
    rw [hid, List.map_id]
  | cons l ls ih =>
    intro k accs hnd
    unfold applyBalanceLines
    cases hf : accs.find? (fun a => a.id == l.account_id) with
    | none =>
      simp only [hf]
      rw [ih k accs hnd]
      have hb : bumpAll (l :: ls) accs = bumpAll ls accs := by
        unfold bumpAll
        apply List.map_congr_left
        intro a ha
        have hna : ¬((l.account_id == a.id) = true) := by
          have hx := List.find?_eq_none.mp hf a ha
          simp only [beq_iff_eq] at hx ⊢
          exact fun hcon => hx hcon.symm
        simp [List.filter_cons, hna]
      rw [hb]
    | some a0 =>
      simp only [hf]
      rw [if_neg (by simp)]
      rw [ih (k + 1) _ ?hnd2]
      case hnd2 =>
        rw [List.map_map]
        have hcomp : ((fun (a : Account) => a.id) ∘ fun a =>
            if a.id == l.account_id then { a with current_balance :=
              if a0.account_category == "asset" || a0.account_category == "expense"
              then a0.current_balance + l.debit - l.credit
              else a0.current_balance - l.debit + l.credit } else a)
            = fun (a : Account) => a.id := by
          funext a
          by_cases h : (a.id == l.account_id) = true <;> simp [Function.comp, h]
        rw [hcomp]
        exact hnd
      have hb : bumpAll ls (accs.map (fun a =>
          if a.id == l.account_id then { a with current_balance :=
            if a0.account_category == "asset" || a0.account_category == "expense"
            then a0.current_balance + l.debit - l.credit
            else a0.current_balance - l.debit + l.credit } else a))
          = bumpAll (l :: ls) accs := by
        unfold bumpAll
        rw [List.map_map]
        apply List.map_congr_left
        intro a ha
        by_cases hida : (a.id == l.account_id) = true
        · have haeq : a = a0 := by
            have hsome := find?_key_of_nodup Account.id l.account_id accs hnd a ha
              (by simpa using hida)
            rw [hf] at hsome
            exact (Option.some.inj hsome).symm
          subst haeq
          have hlid : (l.account_id == a.id) = true := by
            simp only [beq_iff_eq] at hida ⊢
            exact hida.symm
          simp only [Function.comp, hida, if_pos, List.filter_cons, hlid, if_true,
            List.map_cons, List.sum_cons]
          cases hcat : (a.account_category == "asset" || a.account_category == "expense") with
          | true =>
            simp only [hcat, if_true, Account.mk.injEq, true_and, accountDelta_update]
            simp only [accountDelta, hcat, if_true]
            ring
          | false =>
            simp only [hcat, Bool.false_eq_true, if_false, Account.mk.injEq, true_and,
              accountDelta_update]
            simp only [accountDelta, hcat, Bool.false_eq_true, if_false]
            ring
        · have hlid : ¬((l.account_id == a.id) = true) := by
            simp only [beq_iff_eq] at hida ⊢
            exact fun hcon => hida hcon.symm
          simp [Function.comp, hida, List.filter_cons, hlid]
      rw [hb]

/-- The failure-free `_update_account_balances` always reports success and
rewrites the accounts table to `bumpAll` over the entry's lines. -/
theorem update_account_balances_none (s : State) (eid : Nat)
    (hnd : (s.accounts.map Account.id).Nodup) :
    update_account_balances_flt none s eid
      = (true, { s with accounts := bumpAll (get_entry_lines s eid) s.accounts }) := by
  unfold update_account_balances_flt
  rw [applyBalanceLines_none_eq_bumpAll (get_entry_lines s eid) 0 s.accounts hnd]

/-- `find?` by id over a `bumpAll` result is the bump of the original
lookup. -/
theorem bumpAll_find? (ls : List JournalLine) (accs : List Account) (aid : Nat) :
    (bumpAll ls accs).find? (fun x => x.id == aid)
      = (accs.find? (fun x => x.id == aid)).map (fun a =>
          { a with current_balance := a.current_balance
              + ((ls.filter (fun l => l.account_id == a.id)).map (accountDelta a)).sum }) :=
  find?_map_key (fun a : Account => { a with current_balance := a.current_balance
      + ((ls.filter (fun l => l.account_id == a.id)).map (accountDelta a)).sum })
    Account.id (fun _ => rfl) aid accs

/-- A successful post rewrites the state to bumped balances plus the
status flip. -/
theorem post_entry_eq_of_draft (s : State) (eid pb : Nat) (e : JournalEntry)
    (he : get_entry_details s eid = some e) (hdraft : e.status = "draft")
    (hand : (s.accounts.map Account.id).Nodup) :
    post_entry s eid pb
      = (true,
          { s with
            accounts := bumpAll (get_entry_lines s eid) s.accounts,
            entries := s.entries.map
              (fun e2 => if e2.id == eid then { e2 with status := "posted" } else e2) }) := by
  have hds : (e.status == "draft") = true := by simp [hdraft]
  unfold post_entry post_entry_flt
  simp only [he, hds, Bool.not_true, Bool.false_eq_true, if_false,
    update_account_balances_none s eid hand, Bool.not_true]

/-- C2: posting a draft entry succeeds and updates each line's account
exactly once by the category sign convention — `+debit − credit` for
asset/expense accounts, `−debit + credit` for the others — whenever the
entry's lines reference pairwise distinct accounts. -/
theorem post_entry_sign_convention (s : State) (eid pb : Nat) (e : JournalEntry)
    (he : get_entry_details s eid = some e) (hdraft : e.status = "draft")
    (hand : (s.accounts.map Account.id).Nodup)
    (hlnd : ((get_entry_lines s eid).map JournalLine.account_id).Nodup) :
    (post_entry s eid pb).1 = true ∧
      ∀ l ∈ get_entry_lines s eid, ∀ a ∈ s.accounts, a.id = l.account_id →
        get_account_by_id (post_entry s eid pb).2 l.account_id =
          some { a with current_balance :=
            if a.account_category == "asset" || a.account_category == "expense"
            then a.current_balance + l.debit - l.credit
            else a.current_balance - l.debit + l.credit } := by
  have hpost := post_entry_eq_of_draft s eid pb e he hdraft hand
  constructor
  · rw [hpost]
  · intro l hl a ha hid
    have hstate : (post_entry s eid pb).2
        = { s with
            accounts := bumpAll (get_entry_lines s eid) s.accounts,
            entries := s.entries.map
              (fun e2 => if e2.id == eid then { e2 with status := "posted" } else e2) } := by
      rw [hpost]
    rw [hstate]
    show (bumpAll (get_entry_lines s eid) s.accounts).find?
      (fun x => x.id == l.account_id) = _
    rw [bumpAll_find?]
    rw [find?_key_of_nodup Account.id l.account_id s.accounts hand a ha hid]
    rw [Option.map_some']
    have hsingle : (get_entry_lines s eid).filter
        (fun l2 => l2.account_id == a.id) = [l] := by
      have hx := filter_key_single JournalLine.account_id (get_entry_lines s eid) hlnd l hl
      rw [← hid] at hx
      exact hx
    rw [hsingle]
    simp only [List.map_cons, List.map_nil, List.sum_cons, List.sum_nil, add_zero,
      accountDelta, Account.mk.injEq, true_and]
    cases hcat : (a.account_category == "asset" || a.account_category == "expense") with
    | true =>
      simp only [hcat, if_true]
      ring_nf
    | false =>
      simp only [hcat, Bool.false_eq_true, if_false]
      ring_nf

/-- The claim's concrete scenario: posting [debit Cash 1000, credit
Revenue 1000] moves Cash (asset) from 5000 to 6000 and Revenue (revenue)
from 0 to 1000. -/
theorem post_entry_sign_convention_witness :
    (post_entry SA3 1 1).1 = true ∧
      get_account_by_id (post_entry SA3 1 1).2 1 = some cashSA4 ∧
      get_account_by_id (post_entry SA3 1 1).2 2 = some revSA4 := by
  have h := post_entry_sign_convention SA3 1 1 entrySA3 (by decide) (by decide)
    (by decide) (by decide)
  refine ⟨h.1, ?_, ?_⟩
  · have h2 := h.2 lineCashSA3 (by decide) cashSA3 (by decide) (by decide)
    exact Eq.trans h2 (by decide)
  · have h2 := h.2 lineRevSA3 (by decide) revSA3 (by decide) (by decide)
    exact Eq.trans h2 (by decide)

/-- C4: a `posted` or `approved` entry can be neither updated nor deleted
(both return false with the state unchanged), and posting an entry whose
status is not draft — a second post included — returns false and applies
no balance delta to any account. -/
theorem non_draft_entries_immutable (s : State) (eid pb : Nat) (e : JournalEntry)
    (u : EntryUpdate)
    (he : get_entry_details s eid = some e)
    (hst : e.status = "posted" ∨ e.status = "approved") :
    update_entry s eid u = (false, s) ∧ delete_entry s eid = (false, s) ∧
      post_entry s eid pb = (false, s) := by
  have h1 : (e.status == "posted" || e.status == "approved") = true := by
    rcases hst with h | h <;> simp [h]
  have h2 : (e.status == "draft") = false := by
    rcases hst with h | h <;> simp [h]
  refine ⟨?_, ?_, ?_⟩
  · simp [update_entry, he, h1]
  · simp [delete_entry, he, h1]
  · simp [post_entry, post_entry_flt, he, h2]

/-- The posted example entry rejects update, delete and a second post,
all as strict no-ops. -/
theorem non_draft_entries_immutable_witness :
    update_entry SA4 1 { EntryUpdate.empty with description := some "x" } = (false, SA4)
      ∧ delete_entry SA4 1 = (false, SA4) ∧ post_entry SA4 1 1 = (false, SA4) :=
  non_draft_entries_immutable SA4 1 1 { entrySA3 with status := "posted" }
    { EntryUpdate.empty with description := some "x" }
    (by decide) (Or.inl rfl)

/-- C7 (amended part): without `force`, `delete_account` on an account
referenced by any journal line returns false and leaves the state
unchanged. -/
theorem line_referenced_account_delete_refused (s : State) (aid : Nat)
    (h : has_journal_entries s aid = true) :
    delete_account s aid false = (false, s) := by
  unfold delete_account delete_account_fuel
  cases hf : get_account_by_id s aid with
  | none => rfl
  | some a =>
    have hv : validate_account_deletion s aid = false := by
      unfold validate_account_deletion
      cases hc : (get_child_accounts s aid).isEmpty <;> simp [hc, h]
    simp [hv, h]

/-- The posted example entry's Cash account cannot be deleted without
force. -/
theorem line_referenced_account_delete_refused_witness :
    delete_account SA4 1 false = (false, SA4) :=
  line_referenced_account_delete_refused SA4 1 (by decide)

/-- C7 (counterexample): with `force := true`, `delete_account` deletes
the Cash account even though a journal line references it, returning
true — refuting that force never deletes line-referencing accounts. -/
theorem force_delete_removes_line_referenced_account :
    has_journal_entries SA4 1 = true ∧ (delete_account SA4 1 true).1 = true ∧
      get_account_by_id (delete_account SA4 1 true).2 1 = none := by
  refine ⟨by decide, by decide, by decide⟩

/-- C3: posting is not atomic.  On the example draft entry, a storage
failure at the second balance write makes `post_entry` return false with
the entry still draft, yet Cash's balance is already updated to 6000 —
the earlier write is not rolled back. -/
theorem post_entry_partial_failure_keeps_earlier_writes :
    (post_entry_flt (some 1) SA3 1 1).1 = false ∧
      (get_account_by_id (post_entry_flt (some 1) SA3 1 1).2 1).map Account.current_balance
        = some 6000 ∧
      (get_account_by_id SA3 1).map Account.current_balance = some 5000 ∧
      (get_account_by_id (post_entry_flt (some 1) SA3 1 1).2 2).map Account.current_balance
        = some 0 ∧
      (get_entry_details (post_entry_flt (some 1) SA3 1 1).2 1).map JournalEntry.status
        = some "draft" := by
  refine ⟨by decide, by decide, by decide, by decide, by decide⟩

/-- C10: `update_entry` on a draft entry validates only `fiscal_year_id`
(rejected when lines exist) and `date` (must lie in the fiscal year
range); any other supplied field is written unchecked — `total_debit` can
be made unequal to `total_credit`, and `status` can be set to `posted`
without any account balance changing. -/
theorem update_entry_writes_unchecked_fields :
    update_entry SA3 1 { EntryUpdate.empty with fiscal_year_id := some 2 } = (false, SA3) ∧
    update_entry SA3 1 { EntryUpdate.empty with date := some 999 } = (false, SA3) ∧
    (update_entry SA3 1 { EntryUpdate.empty with status := some "posted" }).1 = true ∧
    ((update_entry SA3 1 { EntryUpdate.empty with status := some "posted" }).2.entries.map
      JournalEntry.status) = ["posted"] ∧
    (update_entry SA3 1 { EntryUpdate.empty with status := some "posted" }).2.accounts
      = SA3.accounts ∧
    ((update_entry SA3 1 { EntryUpdate.empty with total_debit := some 999 }).2.entries.map
      (fun e => (e.total_debit, e.total_credit))) = [(999, 1000)] := by
  refine ⟨by decide, by decide, by decide, by decide, by decide, by decide⟩

/-- C1 (counterexample): one reachable asset account with opening balance
1000 and no journal activity makes `get_trial_balance`'s totals row carry
`trial_debit = 1000` against `trial_credit = 0` — the totals do not
balance. -/
theorem trial_balance_totals_unbalanced_on_opening_balance :
    Reach SB ∧
      (get_trial_balance SB none).getLast?.map TrialRow.trial_debit = some 1000 ∧
      (get_trial_balance SB none).getLast?.map TrialRow.trial_credit = some 0 ∧
      ¬((get_trial_balance SB none).getLast?.map TrialRow.trial_debit
          = (get_trial_balance SB none).getLast?.map TrialRow.trial_credit) :=
  ⟨reach_SB, by decide, by decide, by decide⟩

/-- C6 (counterexample): approving the posted example entry removes its
lines from the ledger view (`get_ledger` keeps only `status = 'posted'`
rows) while Cash's cached balance keeps the posted delta: the last ledger
row shows 5000, the cache 6000. -/
theorem ledger_cache_disagree_after_approve :
    Reach SA4 ∧ approve_entry SA4 1 1 = (true, SA5) ∧
      (get_ledger SA5 1 none none).getLast?.map LedgerRow.running_balance = some 5000 ∧
      (get_account_by_id SA5 1).map Account.current_balance = some 6000 :=
  ⟨reach_SA4, by decide, by decide, by decide⟩

/-- C8 (counterexample): with the ten reachable roots `"1"` … `"10"`
present, the integer-max rule demands code `"11"` for the next root, but
the generator takes the lexicographically greatest code `"9"`, produces
`"10"` again, and the insert fails on the unique-code constraint: the
eleventh `add_account` returns no id. -/
theorem root_code_generation_breaks_past_ten :
    Reach T10 ∧ (T10.accounts.map Account.code)
        = ["1", "2", "3", "4", "5", "6", "7", "8", "9", "10"] ∧
      generate_account_code T10 none = some "10" ∧
      (add_account T10 none "r11" "r11" "general" "asset" 0) = (none, T10) :=
  ⟨reach_T10, by decide, by decide, by decide⟩

/-- `isPostedLine` depends only on the entries table. -/
theorem isPostedLine_entries_eq (s1 s2 : State) (h : s1.entries = s2.entries)
    (l : JournalLine) : isPostedLine s1 l = isPostedLine s2 l := by
  unfold isPostedLine
  rw [h]

/-- `postedSum` depends only on the lines and entries tables. -/
theorem postedSum_state_eq (s1 s2 : State) (hl : s1.lines = s2.lines)
    (he : s1.entries = s2.entries) (a : Account) : postedSum s1 a = postedSum s2 a := by
  unfold postedSum
  have hp : (fun l => l.account_id == a.id && isPostedLine s1 l)
      = (fun l => l.account_id == a.id && isPostedLine s2 l) := by
    funext l
    rw [isPostedLine_entries_eq s1 s2 he]
  rw [hl, hp]

/-- Appending an entry whose id is not looked up leaves `find?` by an
existing id unchanged. -/
theorem find?_entries_append_covered (es : List JournalEntry) (E : JournalEntry)
    (tid : Nat) (e : JournalEntry) (he : e ∈ es) (hid : e.id = tid) :
    (es ++ [E]).find? (fun x => x.id == tid) = es.find? (fun x => x.id == tid) := by
  rw [List.find?_append]
  have hsome : (es.find? (fun x => x.id == tid)).isSome :=
    List.find?_isSome.mpr ⟨e, he, by simp [hid]⟩
  cases hfind : es.find? (fun x => x.id == tid) with
  | none => rw [hfind] at hsome; simp at hsome
  | some x => rfl

/-- Looking up the id of a freshly appended entry finds it. -/
theorem find?_entries_append_fresh (es : List JournalEntry) (E : JournalEntry)
    (tid : Nat) (hfresh : ∀ e ∈ es, e.id ≠ tid) (hE : E.id = tid) :
    (es ++ [E]).find? (fun x => x.id == tid) = some E := by
  rw [List.find?_append]
  have hnone : es.find? (fun x => x.id == tid) = none := by
    rw [List.find?_eq_none]
    intro e he
    simp only [beq_iff_eq]
    exact hfresh e he
  rw [hnone]
  simp [hE]

/-- Replacing only the accounts table (and the account counter) leaves
`postedSum` unchanged. -/
theorem postedSum_set_accounts (s : State) (accs : List Account) (nA : Nat) (a : Account) :
    postedSum { s with accounts := accs, nextAccountId := nA } a = postedSum s a :=
  postedSum_state_eq _ s rfl rfl a

/-- The invariant bundle is preserved by `add_account`. -/
theorem inv_add_account (s : State) (hinv : StateInv s) (p : Option Nat)
    (n1 n2 t c : String) (ob : ℚ) :
    StateInv (add_account s p n1 n2 t c ob).2 := by
  unfold add_account
  cases hv : validate_account_inputs s p n1 n2 t c with
  | false => simp only [hv, Bool.not_false, if_true]; exact hinv
  | true =>
    simp only [hv, Bool.not_true, Bool.false_eq_true, if_false]
    cases hgen : generate_account_code s p with
    | none => simp only [hgen]; exact hinv
    | some code =>
      simp only [hgen]
      cases hdup : s.accounts.any (fun a => a.code == code) with
      | true => simp only [hdup, if_true]; exact hinv
      | false =>
        simp only [hdup, Bool.false_eq_true, if_false]
        constructor
        · intro a ha
          rcases List.mem_append.mp ha with h | h
          · exact Nat.lt_trans (hinv.acc_id_lt a h) (Nat.lt_succ_self _)
          · rw [List.mem_singleton.mp h]
            exact Nat.lt_succ_self _
        · rw [List.map_append, List.nodup_append]
          refine ⟨hinv.acc_nodup, by simp, ?_⟩
          intro x hx hy
          simp only [List.map_cons, List.map_nil, List.mem_singleton] at hy
          obtain ⟨a, ha, haid⟩ := List.mem_map.mp hx
          have := hinv.acc_id_lt a ha
          omega
        · intro a ha
          rcases List.mem_append.mp ha with h | h
          · exact hinv.acc_active a h
          · rw [List.mem_singleton.mp h]
        · exact hinv.ent_id_lt
        · exact hinv.ent_nodup
        · intro l hl
          obtain ⟨a, ha, haid⟩ := hinv.line_acc l hl
          exact ⟨a, List.mem_append_left _ ha, haid⟩
        · exact hinv.line_ent
        · exact hinv.ent_status
        · exact hinv.one_sided
        · intro a ha
          rcases List.mem_append.mp ha with h | h
          · rw [postedSum_set_accounts]
            exact hinv.bal a h
          · rw [List.mem_singleton.mp h]
            have hzero : postedSum s
                { id := s.nextAccountId, parent_id := p, code := code,
                  name_ar := n1, name_en := n2, account_type := t,
                  account_category := c, level := get_account_level s p,
                  full_path := generate_full_path s p n1, is_active := true,
                  opening_balance := ob, current_balance := ob } = 0 := by
              unfold postedSum
              have hnil : s.lines.filter (fun l =>
                  (l.account_id == s.nextAccountId) && isPostedLine s l) = [] := by
                rw [List.filter_eq_nil_iff]
                intro l hl
                obtain ⟨a2, ha2, ha2id⟩ := hinv.line_acc l hl
                have hlt := hinv.acc_id_lt a2 ha2
                have : (l.account_id == s.nextAccountId) = false := by
                  simp only [beq_eq_false_iff_ne, ne_eq]
                  omega
                simp [this]
              rw [hnil]
              rfl
            show ob = ob + _
            rw [postedSum_set_accounts, hzero]
            ring

/-- Appending a fresh non-posted entry and its lines leaves `postedSum`
unchanged. -/
theorem postedSum_create (s : State) (E : JournalEntry) (nl : List JournalLine)
    (nE : Nat) (a : Account)
    (hfresh : ∀ e ∈ s.entries, e.id ≠ E.id)
    (hstat : (E.status == "posted") = false)
    (hnl : ∀ l ∈ nl, l.entry_id = E.id)
    (hle : ∀ l ∈ s.lines, ∃ e ∈ s.entries, e.id = l.entry_id) :
    postedSum { s with entries := s.entries ++ [E], lines := s.lines ++ nl,
                       nextEntryId := nE } a = postedSum s a := by
  unfold postedSum
  show ((List.filter _ (s.lines ++ nl)).map _).sum = _
  rw [List.filter_append]
  have h1 : s.lines.filter (fun l => l.account_id == a.id &&
        isPostedLine { s with entries := s.entries ++ [E], lines := s.lines ++ nl,
                              nextEntryId := nE } l)
      = s.lines.filter (fun l => l.account_id == a.id && isPostedLine s l) := by
    apply List.filter_congr
    intro l hl
    obtain ⟨e, he, heid⟩ := hle l hl
    have hp : isPostedLine
        { s with entries := s.entries ++ [E],
                 lines := s.lines ++ nl, nextEntryId := nE } l
        = isPostedLine s l := by
      unfold isPostedLine
      show (match (s.entries ++ [E]).find? (fun e => e.id == l.entry_id) with
        | some e => e.status == "posted" | none => false) = _
      rw [find?_entries_append_covered s.entries E l.entry_id e he heid]
    rw [hp]
  have h2 : nl.filter (fun l => l.account_id == a.id &&
        isPostedLine { s with entries := s.entries ++ [E], lines := s.lines ++ nl,
                              nextEntryId := nE } l)
      = [] := by
    rw [List.filter_eq_nil_iff]
    intro l hl
    have hp : isPostedLine
        { s with entries := s.entries ++ [E],
                 lines := s.lines ++ nl, nextEntryId := nE } l
        = false := by
      unfold isPostedLine
      show (match (s.entries ++ [E]).find? (fun e => e.id == l.entry_id) with
        | some e => e.status == "posted" | none => false) = false
      rw [hnl l hl, find?_entries_append_fresh s.entries E E.id hfresh rfl]
      exact hstat
    simp [hp]
  rw [h1, h2, List.append_nil]

/-- The invariant bundle is preserved by `create_entry`. -/
theorem inv_create_entry (s : State) (hinv : StateInv s) (d : Int) (desc : String)
    (ls : List LineInput) (fy : Nat) :
    StateInv (create_entry s d desc ls fy).2 := by
  unfold create_entry
  cases hv : validate_entry s ls with
  | false => simp only [hv, Bool.not_false, if_true]; exact hinv
  | true =>
    simp only [hv, Bool.not_true, Bool.false_eq_true, if_false]
    obtain ⟨hlen, htol, hlines⟩ := validate_entry_spec s ls hv
    cases hdup : s.entries.any
        (fun e => e.entry_number == generate_entry_number s fy) with
    | true => simp only [hdup, if_true]; exact hinv
    | false =>
      simp only [hdup, Bool.false_eq_true, if_false]
      refine { acc_id_lt := hinv.acc_id_lt, acc_nodup := hinv.acc_nodup,
               acc_active := hinv.acc_active, ent_id_lt := ?_, ent_nodup := ?_,
               line_acc := ?_, line_ent := ?_, ent_status := ?_,
               one_sided := ?_, bal := ?_ }
      · intro e he
        rcases List.mem_append.mp he with h | h
        · exact Nat.lt_trans (hinv.ent_id_lt e h) (Nat.lt_succ_self _)
        · rw [List.mem_singleton.mp h]
          exact Nat.lt_succ_self _
      · rw [List.map_append, List.nodup_append]
        refine ⟨hinv.ent_nodup, by simp, ?_⟩
        intro x hx hy
        simp only [List.map_cons, List.map_nil, List.mem_singleton] at hy
        obtain ⟨e, he, heid⟩ := List.mem_map.mp hx
        have := hinv.ent_id_lt e he
        omega
      · intro l hl
        rcases List.mem_append.mp hl with h | h
        · exact hinv.line_acc l h
        · obtain ⟨p, hp, rfl⟩ := List.mem_map.mp h
          have hsnd : p.2 ∈ ls := by
            have := List.mem_map_of_mem Prod.snd hp
            rwa [List.enum_map_snd] at this
          obtain ⟨a, hamem, haid, -⟩ := validate_journal_line_spec s p.2 (hlines p.2 hsnd)
          exact ⟨a, hamem, haid⟩
      · intro l hl
        rcases List.mem_append.mp hl with h | h
        · obtain ⟨e, he, heid⟩ := hinv.line_ent l h
          exact ⟨e, List.mem_append_left _ he, heid⟩
        · obtain ⟨p, hp, rfl⟩ := List.mem_map.mp h
          exact ⟨_, List.mem_append_right _ (List.mem_singleton.mpr rfl), rfl⟩
      · intro e he
        rcases List.mem_append.mp he with h | h
        · exact hinv.ent_status e h
        · rw [List.mem_singleton.mp h]
          exact Or.inl rfl
      · intro l hl
        rcases List.mem_append.mp hl with h | h
        · exact hinv.one_sided l h
        · obtain ⟨p, hp, rfl⟩ := List.mem_map.mp h
          have hsnd : p.2 ∈ ls := by
            have := List.mem_map_of_mem Prod.snd hp
            rwa [List.enum_map_snd] at this
          obtain ⟨a, -, -, -, -, -, hside⟩ := validate_journal_line_spec s p.2 (hlines p.2 hsnd)
          exact hside
      · intro a ha
        have hA : ∀ e ∈ s.entries,
            e.id ≠ ({ id := s.nextEntryId, entry_number := generate_entry_number s fy,
                      date := d, description := desc, fiscal_year_id := fy,
                      total_debit := (calculate_entry_totals ls).1,
                      total_credit := (calculate_entry_totals ls).2,
                      status := "draft" } : JournalEntry).id := by
          intro e he
          have := hinv.ent_id_lt e he
          show e.id ≠ s.nextEntryId
          omega
        have hB : (({ id := s.nextEntryId, entry_number := generate_entry_number s fy,
                      date := d, description := desc, fiscal_year_id := fy,
                      total_debit := (calculate_entry_totals ls).1,
                      total_credit := (calculate_entry_totals ls).2,
                      status := "draft" } : JournalEntry).status == "posted") = false := by
          show ("draft" == "posted") = false
          decide
        have hC : ∀ l ∈ ls.enum.map (fun p =>
              { entry_id := s.nextEntryId, account_id := p.2.account_id,
                line_number := p.1 + 1, description := p.2.description,
                debit := p.2.debit, credit := p.2.credit : JournalLine }),
            l.entry_id = ({ id := s.nextEntryId,
                            entry_number := generate_entry_number s fy,
                            date := d, description := desc, fiscal_year_id := fy,
                            total_debit := (calculate_entry_totals ls).1,
                            total_credit := (calculate_entry_totals ls).2,
                            status := "draft" } : JournalEntry).id := by
          intro l hl
          obtain ⟨p, hp, rfl⟩ := List.mem_map.mp hl
          rfl
        have hps := postedSum_create s _ _ (s.nextEntryId + 1) a hA hB hC hinv.line_ent
        exact Eq.trans (hinv.bal a ha)
          (congrArg (fun q => a.opening_balance + q) hps.symm)

/-- A status flip keyed on the entry id leaves the id unchanged. -/
theorem statusFlip_id (eid : Nat) (e : JournalEntry) :
    (if e.id == eid then { e with status := "posted" } else e).id = e.id := by
  by_cases h : (e.id == eid) = true
  · rw [if_pos h]
  · rw [if_neg h]

/-- A status flip either writes `posted` or keeps the old status. -/
theorem statusFlip_status (eid : Nat) (e : JournalEntry) :
    (if e.id == eid then ({ e with status := "posted" } : JournalEntry) else e).status
        = "posted"
      ∨ (if e.id == eid then ({ e with status := "posted" } : JournalEntry) else e).status
        = e.status := by
  by_cases h : (e.id == eid) = true
  · rw [if_pos h]; exact Or.inl rfl
  · rw [if_neg h]; exact Or.inr rfl

/-- `bumpAll` does not touch the account id column. -/
theorem bumpAll_map_id (ls : List JournalLine) (accs : List Account) :
    (bumpAll ls accs).map Account.id = accs.map Account.id := by
  unfold bumpAll
  rw [List.map_map]
  exact List.map_congr_left (fun a _ => rfl)

/-- The posting status flip does not touch the entry id column. -/
theorem flip_map_id (eid : Nat) (es : List JournalEntry) :
    (es.map (fun e => if e.id == eid then { e with status := "posted" } else e)).map
        JournalEntry.id
      = es.map JournalEntry.id := by
  rw [List.map_map]
  exact List.map_congr_left (fun e _ => statusFlip_id eid e)

/-- After the posting status flip, a line is posted exactly when it belongs
to the flipped entry or was posted before. -/
theorem isPostedLine_post (s : State) (eid : Nat) (e : JournalEntry)
    (hemem : e ∈ s.entries) (heid : e.id = eid) (accs : List Account)
    (l : JournalLine) :
    isPostedLine
        { s with accounts := accs,
                 entries := s.entries.map
                   (fun e2 => if e2.id == eid then { e2 with status := "posted" } else e2) }
        l
      = (l.entry_id == eid || isPostedLine s l) := by
  unfold isPostedLine
  show (match (s.entries.map
      (fun e2 => if e2.id == eid then { e2 with status := "posted" } else e2)).find?
        (fun e => e.id == l.entry_id) with
    | some e => e.status == "posted" | none => false) = _
  rw [find?_map_key (fun e2 => if e2.id == eid then { e2 with status := "posted" } else e2)
    JournalEntry.id (fun e2 => statusFlip_id eid e2) l.entry_id s.entries]
  cases hf : s.entries.find? (fun x => x.id == l.entry_id) with
  | none =>
    simp only [hf, Option.map_none']
    have hne : (l.entry_id == eid) = false := by
      rw [beq_eq_false_iff_ne]
      intro hcon
      have hs : (s.entries.find? (fun x => x.id == l.entry_id)).isSome =
          true := List.find?_isSome.mpr ⟨e, hemem, by simp [heid, hcon]⟩
      rw [hf] at hs
      simp at hs
    rw [hne]
    rfl
  | some e2 =>
    simp only [hf, Option.map_some']
    have he2id : e2.id = l.entry_id := by simpa using List.find?_some hf
    by_cases h2 : (e2.id == eid) = true
    · rw [if_pos h2]
      have hel : (l.entry_id == eid) = true := by
        rw [beq_iff_eq] at h2 ⊢
        rw [← he2id, h2]
      rw [hel]
      simp
    · rw [if_neg h2]
      have hne2 : e2.id ≠ eid := by simpa using h2
      have hel : (l.entry_id == eid) = false := by
        rw [beq_eq_false_iff_ne]
        rw [← he2id]
        exact hne2
      rw [hel]
      simp

/-- After a successful post, `postedSum` at a balance-rewritten account
grows by exactly the entry's per-account line deltas. -/
theorem postedSum_after_post (s : State) (eid : Nat) (e : JournalEntry)
    (hemem : e ∈ s.entries) (heid : e.id = eid) (hdraft : e.status = "draft")
    (hinv : StateInv s) (a : Account) (q : ℚ) :
    postedSum
        { s with accounts := bumpAll (get_entry_lines s eid) s.accounts,
                 entries := s.entries.map
                   (fun e2 => if e2.id == eid then { e2 with status := "posted" } else e2) }
        { a with current_balance := q }
      = postedSum s a
        + (((get_entry_lines s eid).filter (fun l => l.account_id == a.id)).map
            (accountDelta a)).sum := by
  unfold postedSum
  simp only [accountDelta_update, isPostedLine_post s eid e hemem heid,
    Bool.and_or_distrib_left]
  have hdisj : ∀ l ∈ s.lines,
      ¬((l.account_id == a.id && l.entry_id == eid) = true ∧
        (l.account_id == a.id && isPostedLine s l) = true) := by
    intro l hl hcon
    obtain ⟨hp, hq⟩ := hcon
    rw [Bool.and_eq_true] at hp hq
    have h1 : (l.entry_id == eid) = true := hp.2
    have h2 : isPostedLine s l = true := hq.2
    have hfind : s.entries.find? (fun x => x.id == l.entry_id) = some e := by
      apply find?_key_of_nodup JournalEntry.id l.entry_id s.entries hinv.ent_nodup e hemem
      rw [beq_iff_eq] at h1
      rw [heid, h1]
    unfold isPostedLine at h2
    rw [hfind] at h2
    replace h2 : (e.status == "posted") = true := h2
    rw [hdraft] at h2
    exact absurd h2 (by decide)
  rw [show ({ a with current_balance := q } : Account).id = a.id from rfl]
  rw [sum_filter_or_disjoint (fun l => l.account_id == a.id && l.entry_id == eid)
    (fun l => l.account_id == a.id && isPostedLine s l) (accountDelta a) s.lines hdisj]
  have hpgel : ((s.lines.filter (fun l => l.account_id == a.id && l.entry_id == eid)).map
        (accountDelta a)).sum
      = (((get_entry_lines s eid).filter (fun l => l.account_id == a.id)).map
          (accountDelta a)).sum := by
    have hperm : ((get_entry_lines s eid).filter
          (fun l => l.account_id == a.id)).Perm
        ((s.lines.filter (fun l =>
          l.entry_id == eid && s.accounts.any (fun a2 => a2.id == l.account_id))).filter
            (fun l => l.account_id == a.id)) :=
      (List.perm_insertionSort _ _).filter _
    have hsum2 := (hperm.map (accountDelta a)).sum_eq
    rw [hsum2, List.filter_filter]
    have hcongr : s.lines.filter (fun l => (l.account_id == a.id) &&
          (l.entry_id == eid && s.accounts.any (fun a2 => a2.id == l.account_id)))
        = s.lines.filter (fun l => l.account_id == a.id && l.entry_id == eid) := by
      apply List.filter_congr
      intro l hl
      obtain ⟨a2, ha2, ha2id⟩ := hinv.line_acc l hl
      have hany : (s.accounts.any (fun a2 => a2.id == l.account_id)) = true :=
        List.any_eq_true.mpr ⟨a2, ha2, by simp [ha2id]⟩
      rw [hany, Bool.and_true]
    rw [hcongr]
  rw [hpgel]
  exact add_comm _ _

/-- The invariant bundle is preserved by `post_entry`. -/
theorem inv_post_entry (s : State) (hinv : StateInv s) (eid pb : Nat) :
    StateInv (post_entry s eid pb).2 := by
  cases he : get_entry_details s eid with
  | none =>
    have hp : post_entry s eid pb = (false, s) := by
      unfold post_entry post_entry_flt
      simp only [he]
    rw [hp]
    exact hinv
  | some e =>
    cases hst : (e.status == "draft") with
    | false =>
      have hp : post_entry s eid pb = (false, s) := by
        unfold post_entry post_entry_flt
        simp only [he, hst, Bool.not_false, if_true]
      rw [hp]
      exact hinv
    | true =>
      have hdraft : e.status = "draft" := by simpa using hst
      have hemem : e ∈ s.entries := List.mem_of_find?_eq_some he
      have heid : e.id = eid := by simpa using List.find?_some he
      rw [post_entry_eq_of_draft s eid pb e he hdraft hinv.acc_nodup]
      refine { acc_id_lt := ?_, acc_nodup := ?_, acc_active := ?_, ent_id_lt := ?_,
               ent_nodup := ?_, line_acc := ?_, line_ent := ?_, ent_status := ?_,
               one_sided := ?_, bal := ?_ }
      · intro a ha
        have ha2 : a ∈ bumpAll (get_entry_lines s eid) s.accounts := ha
        unfold bumpAll at ha2
        obtain ⟨b, hb, rfl⟩ := List.mem_map.mp ha2
        exact hinv.acc_id_lt b hb
      · show ((bumpAll (get_entry_lines s eid) s.accounts).map Account.id).Nodup
        rw [bumpAll_map_id]
        exact hinv.acc_nodup
      · intro a ha
        have ha2 : a ∈ bumpAll (get_entry_lines s eid) s.accounts := ha
        unfold bumpAll at ha2
        obtain ⟨b, hb, rfl⟩ := List.mem_map.mp ha2
        exact hinv.acc_active b hb
      · intro e2 he2
        have he3 : e2 ∈ s.entries.map
            (fun e3 => if e3.id == eid then { e3 with status := "posted" } else e3) := he2
        obtain ⟨b, hb, rfl⟩ := List.mem_map.mp he3
        have hlt := hinv.ent_id_lt b hb
        have hid := statusFlip_id eid b
        show (if b.id == eid then ({ b with status := "posted" } : JournalEntry) else b).id
          < s.nextEntryId
        omega
      · show ((s.entries.map
            (fun e3 => if e3.id == eid then { e3 with status := "posted" } else e3)).map
              JournalEntry.id).Nodup
        rw [flip_map_id]
        exact hinv.ent_nodup
      · intro l hl
        obtain ⟨a, ha, haid⟩ := hinv.line_acc l hl
        show ∃ a2 ∈ bumpAll (get_entry_lines s eid) s.accounts, a2.id = l.account_id
        unfold bumpAll
        exact ⟨_, List.mem_map_of_mem _ ha, haid⟩
      · intro l hl
        obtain ⟨e2, he2, he2id⟩ := hinv.line_ent l hl
        show ∃ e3 ∈ s.entries.map
            (fun e3 => if e3.id == eid then { e3 with status := "posted" } else e3),
          e3.id = l.entry_id
        exact ⟨_, List.mem_map_of_mem _ he2, Eq.trans (statusFlip_id eid e2) he2id⟩
      · intro e2 he2
        have he3 : e2 ∈ s.entries.map
            (fun e3 => if e3.id == eid then { e3 with status := "posted" } else e3) := he2
        obtain ⟨b, hb, rfl⟩ := List.mem_map.mp he3
        rcases statusFlip_status eid b with h | h
        · exact Or.inr h
        · rcases hinv.ent_status b hb with h2 | h2
          · exact Or.inl (Eq.trans h h2)
          · exact Or.inr (Eq.trans h h2)
      · intro l hl
        exact hinv.one_sided l hl
      · intro a2 ha2
        have ha3 : a2 ∈ bumpAll (get_entry_lines s eid) s.accounts := ha2
        unfold bumpAll at ha3
        obtain ⟨a, ha, rfl⟩ := List.mem_map.mp ha3
        show a.current_balance
            + (((get_entry_lines s eid).filter (fun l => l.account_id == a.id)).map
                (accountDelta a)).sum
          = a.opening_balance
            + postedSum
                { s with accounts := bumpAll (get_entry_lines s eid) s.accounts,
                         entries := s.entries.map
                           (fun e2 => if e2.id == eid
                             then { e2 with status := "posted" } else e2) }
                { a with current_balance := a.current_balance
                    + (((get_entry_lines s eid).filter
                        (fun l => l.account_id == a.id)).map (accountDelta a)).sum }
        rw [postedSum_after_post s eid e hemem heid hdraft hinv a _]
        rw [hinv.bal a ha]
        ring

/-- The empty initial database satisfies the invariant bundle. -/
theorem inv_init (fys : List FiscalYear) : StateInv (State.init fys) :=
  { acc_id_lt := fun a ha => absurd ha (List.not_mem_nil a),
    acc_nodup := List.nodup_nil,
    acc_active := fun a ha => absurd ha (List.not_mem_nil a),
    ent_id_lt := fun e he => absurd he (List.not_mem_nil e),
    ent_nodup := List.nodup_nil,
    line_acc := fun l hl => absurd hl (List.not_mem_nil l),
    line_ent := fun l hl => absurd hl (List.not_mem_nil l),
    ent_status := fun e he => absurd he (List.not_mem_nil e),
    one_sided := fun l hl => absurd hl (List.not_mem_nil l),
    bal := fun a ha => absurd ha (List.not_mem_nil a) }

/-- Every state reachable through the public API satisfies the invariant
bundle. -/
theorem reach_inv (s : State) (hr : Reach s) : StateInv s := by
  induction hr with
  | init fys => exact inv_init fys
  | add s p n1 n2 t c ob _ ih => exact inv_add_account s ih p n1 n2 t c ob
  | create s d desc ls fy _ ih => exact inv_create_entry s ih d desc ls fy
  | post s eid pb _ ih => exact inv_post_entry s ih eid pb

/-- The debit/credit split of one trial-balance row collapses to the
signed opening balance plus the account's raw line activity. -/
theorem trialRow_diff (s : State) (a : Account) :
    (trialRowFor s a none).trial_debit - (trialRowFor s a none).trial_credit
      = signedOpening a
        + (((s.lines.filter (fun l => l.account_id == a.id)).map JournalLine.debit).sum
           - ((s.lines.filter (fun l => l.account_id == a.id)).map
               JournalLine.credit).sum) := by
  unfold trialRowFor trialLinesFor signedOpening
  simp only
  cases hds : (a.account_category == "asset" || a.account_category == "expense") with
  | true =>
    simp only [hds, if_true]
    rcases le_or_lt 0 (a.opening_balance
        + ((s.lines.filter (fun l => l.account_id == a.id)).map JournalLine.debit).sum
        - ((s.lines.filter (fun l => l.account_id == a.id)).map
            JournalLine.credit).sum) with h | h
    · rw [if_pos h, if_pos h]
      ring
    · rw [if_neg (not_le.mpr h), if_neg (not_le.mpr h), abs_of_neg h]
      ring
  | false =>
    simp only [hds, Bool.false_eq_true, if_false]
    rcases le_or_lt 0 (a.opening_balance
        - ((s.lines.filter (fun l => l.account_id == a.id)).map JournalLine.debit).sum
        + ((s.lines.filter (fun l => l.account_id == a.id)).map
            JournalLine.credit).sum) with h | h
    · rw [if_pos h, if_pos h]
      ring
    · rw [if_neg (not_le.mpr h), if_neg (not_le.mpr h), abs_of_neg h]
      ring

/-- C1 (amended): the totals row of `get_trial_balance` balances on every
reachable state whose signed opening balances cancel and whose entries
are each exactly balanced line-wise; reachability alone is not enough,
because opening balances enter one-sidedly and `validate_entry` admits a
±0.01 per-entry imbalance (see the counterexample theorem). -/
theorem trial_balance_totals_balance (s : State) (hr : Reach s)
    (hopen : (s.accounts.map signedOpening).sum = 0)
    (hbal : ∀ e ∈ s.entries,
      ((s.lines.filter (fun l => l.entry_id == e.id)).map JournalLine.debit).sum
        = ((s.lines.filter (fun l => l.entry_id == e.id)).map JournalLine.credit).sum) :
    ((get_trial_balance s none).getLast?).map TrialRow.trial_debit
      = ((get_trial_balance s none).getLast?).map TrialRow.trial_credit := by
  have hinv := reach_inv s hr
  have key : ∀ L : List Account,
      ((L.map (fun a => trialRowFor s a none)).map TrialRow.trial_debit).sum
        - ((L.map (fun a => trialRowFor s a none)).map TrialRow.trial_credit).sum
      = (L.map signedOpening).sum
        + (L.map (fun a =>
            ((s.lines.filter (fun l => l.account_id == a.id)).map
              JournalLine.debit).sum
              - ((s.lines.filter (fun l => l.account_id == a.id)).map
                  JournalLine.credit).sum)).sum := by
    intro L
    induction L with
    | nil => simp
    | cons a L ih =>
      simp only [List.map_cons, List.sum_cons]
      have hd := trialRow_diff s a
      linarith [ih, hd]
  have hfe : s.accounts.filter (fun a => a.is_active) = s.accounts :=
    List.filter_eq_self.mpr (fun a ha => hinv.acc_active a ha)
  have hperm : (List.insertionSort
        (fun a b : Account => !(strLtB b.code.data a.code.data) = true)
        (s.accounts.filter (fun a => a.is_active))).Perm s.accounts := by
    have hp := List.perm_insertionSort
      (fun a b : Account => !(strLtB b.code.data a.code.data) = true)
      (s.accounts.filter (fun a => a.is_active))
    have hq : (s.accounts.filter (fun a => a.is_active)).Perm s.accounts := by
      rw [hfe]
    exact hp.trans hq
  have h2 : ((List.insertionSort
        (fun a b : Account => !(strLtB b.code.data a.code.data) = true)
        (s.accounts.filter (fun a => a.is_active))).map signedOpening).sum = 0 := by
    rw [(hperm.map signedOpening).sum_eq]
    exact hopen
  have hlineacc : ∀ l ∈ s.lines, l.account_id ∈ s.accounts.map Account.id := by
    intro l hl
    obtain ⟨a, ha, haid⟩ := hinv.line_acc l hl
    exact haid ▸ List.mem_map_of_mem Account.id ha
  have hpart1 := sum_map_filter_partition JournalLine.account_id
    (fun l => l.debit - l.credit) (s.accounts.map Account.id) s.lines
    hinv.acc_nodup hlineacc
  have h4 : (s.accounts.map (fun a =>
        ((s.lines.filter (fun l => l.account_id == a.id)).map JournalLine.debit).sum
          - ((s.lines.filter (fun l => l.account_id == a.id)).map
              JournalLine.credit).sum)).sum
      = (s.lines.map (fun l => l.debit - l.credit)).sum := by
    have e1 : s.accounts.map (fun a =>
          ((s.lines.filter (fun l => l.account_id == a.id)).map
            JournalLine.debit).sum
            - ((s.lines.filter (fun l => l.account_id == a.id)).map
                JournalLine.credit).sum)
        = s.accounts.map (fun a =>
            ((s.lines.filter (fun l => l.account_id == a.id)).map
              (fun l => l.debit - l.credit)).sum) :=
      List.map_congr_left (fun a _ =>
        (sum_map_sub_distrib JournalLine.debit JournalLine.credit _).symm)
    have e2 : s.accounts.map (fun a =>
          ((s.lines.filter (fun l => l.account_id == a.id)).map
            (fun l => l.debit - l.credit)).sum)
        = (s.accounts.map Account.id).map (fun k =>
            ((s.lines.filter (fun l => l.account_id == k)).map
              (fun l => l.debit - l.credit)).sum) := by
      rw [List.map_map]
      exact List.map_congr_left (fun a _ => rfl)
    rw [e1, e2]
    exact hpart1
  have hlineent : ∀ l ∈ s.lines, l.entry_id ∈ s.entries.map JournalEntry.id := by
    intro l hl
    obtain ⟨e, he, heid⟩ := hinv.line_ent l hl
    exact heid ▸ List.mem_map_of_mem JournalEntry.id he
  have hpart2 := sum_map_filter_partition JournalLine.entry_id
    (fun l => l.debit - l.credit) (s.entries.map JournalEntry.id) s.lines
    hinv.ent_nodup hlineent
  have h5 : (s.lines.map (fun l => l.debit - l.credit)).sum = 0 := by
    rw [← hpart2]
    apply List.sum_eq_zero
    intro x hx
    rw [List.map_map] at hx
    obtain ⟨e, he, rfl⟩ := List.mem_map.mp hx
    show ((s.lines.filter (fun l => l.entry_id == e.id)).map
      (fun l => l.debit - l.credit)).sum = 0
    rw [sum_map_sub_distrib JournalLine.debit JournalLine.credit, hbal e he]
    exact sub_self _
  have h3 : ((List.insertionSort
        (fun a b : Account => !(strLtB b.code.data a.code.data) = true)
        (s.accounts.filter (fun a => a.is_active))).map (fun a =>
          ((s.lines.filter (fun l => l.account_id == a.id)).map
            JournalLine.debit).sum
            - ((s.lines.filter (fun l => l.account_id == a.id)).map
                JournalLine.credit).sum)).sum = 0 := by
    rw [(hperm.map _).sum_eq, h4, h5]
  have hmain := key (List.insertionSort
    (fun a b : Account => !(strLtB b.code.data a.code.data) = true)
    (s.accounts.filter (fun a => a.is_active)))
  rw [h2, h3] at hmain
  simp only [get_trial_balance]
  rw [List.getLast?_concat]
  show some ((((List.insertionSort
      (fun a b : Account => !(strLtB b.code.data a.code.data) = true)
      (s.accounts.filter (fun a => a.is_active))).map
        (fun a => trialRowFor s a none)).map TrialRow.trial_debit).sum)
    = some ((((List.insertionSort
      (fun a b : Account => !(strLtB b.code.data a.code.data) = true)
      (s.accounts.filter (fun a => a.is_active))).map
        (fun a => trialRowFor s a none)).map TrialRow.trial_credit).sum)
  exact congrArg some (by linarith [hmain])

/-- The zero-opening pipeline state satisfies the amended trial-balance
law: its signed openings cancel and its totals row balances. -/
theorem trial_balance_totals_balance_witness :
    (SC4.accounts.map signedOpening).sum = 0 ∧
      ((get_trial_balance SC4 none).getLast?).map TrialRow.trial_debit
        = ((get_trial_balance SC4 none).getLast?).map TrialRow.trial_credit :=
  ⟨by decide, trial_balance_totals_balance SC4 reach_SC4 (by decide) (by decide)⟩

/-- `getD` after `getLast?` of a cons: the head becomes the new default. -/
theorem getLast?_cons_getD {α : Type} (xs : List α) :
    ∀ x d : α, ((x :: xs).getLast?).getD d = (xs.getLast?).getD x := by
  induction xs with
  | nil => intro x d; rfl
  | cons y ys ih =>
    intro x d
    rw [List.getLast?_cons_cons, ih y d, ih y x]

/-- One step of the running-balance walk moves the balance by
`ledgerDelta`. -/
theorem ledgerRows_cons (cat : String) (l : JournalLine) (e : JournalEntry)
    (ts : List (JournalLine × JournalEntry)) (b : ℚ) :
    ledgerRows cat b ((l, e) :: ts)
      = { entry_number := some e.entry_number, date := e.date,
          line_description := l.description, debit := l.debit, credit := l.credit,
          status := e.status, running_balance := b + ledgerDelta cat l }
        :: ledgerRows cat (b + ledgerDelta cat l) ts := by
  have hb1 : (if 0 < l.debit
        then (if (cat == "asset" || cat == "expense") = true
          then b + l.debit else b - l.debit)
        else (if (cat == "asset" || cat == "expense") = true
          then b - l.credit else b + l.credit))
      = b + ledgerDelta cat l := by
    simp only [ledgerDelta]
    split_ifs <;> ring
  simp only [ledgerRows]
  rw [hb1]

/-- The last running balance of a nonempty walk is the seed plus the sum
of all deltas. -/
theorem ledgerRows_last (cat : String) :
    ∀ (ts : List (JournalLine × JournalEntry)) (b : ℚ), ts ≠ [] →
      ((ledgerRows cat b ts).map LedgerRow.running_balance).getLast?
        = some (b + (ts.map (fun p => ledgerDelta cat p.1)).sum) := by
  intro ts
  induction ts with
  | nil => intro b h; exact absurd rfl h
  | cons p ts ih =>
    intro b _
    obtain ⟨l, e⟩ := p
    rw [ledgerRows_cons, List.map_cons]
    cases hts : ts with
    | nil =>
      simp only [ledgerRows, List.map_nil, List.getLast?_singleton, List.map_cons,
        List.sum_cons, List.sum_nil, add_zero]
    | cons q ts2 =>
      obtain ⟨l2, e2⟩ := q
      have hih := ih (b + ledgerDelta cat l) (by rw [hts]; simp)
      rw [hts] at hih
      rw [ledgerRows_cons, List.map_cons] at hih
      rw [ledgerRows_cons, List.map_cons, List.getLast?_cons_cons]
      rw [hih]
      simp only [List.map_cons, List.sum_cons]
      exact congrArg some (by ring)

/-- On one-sided lines, the ledger walk's delta is the posting delta. -/
theorem ledgerDelta_eq_accountDelta (a : Account) (l : JournalLine)
    (h : (0 < l.debit ∧ l.credit = 0) ∨ (0 < l.credit ∧ l.debit = 0)) :
    ledgerDelta a.account_category l = accountDelta a l := by
  unfold ledgerDelta accountDelta
  rcases h with ⟨hd, hc⟩ | ⟨hc, hd⟩
  · rw [if_pos hd, hc]
    cases hds : (a.account_category == "asset" || a.account_category == "expense") with
    | true => simp only [hds, if_true]; ring
    | false => simp only [hds, Bool.false_eq_true, if_false]; ring
  · rw [if_neg (by rw [hd]; exact lt_irrefl 0), hd]
    cases hds : (a.account_category == "asset" || a.account_category == "expense") with
    | true => simp only [hds, if_true]; ring
    | false => simp only [hds, Bool.false_eq_true, if_false]; ring

/-- The first components of `get_ledger`'s joined transaction rows are
exactly the account's posted lines. -/
theorem txns_fst (s : State) (aid : Nat) :
    ∀ ls : List JournalLine,
      ((ls.filterMap (fun l =>
          if l.account_id == aid then
            match s.entries.find? (fun e => e.id == l.entry_id) with
            | some e => if e.status == "posted" then some (l, e) else none
            | none => none
          else none)).map Prod.fst)
        = ls.filter (fun l => l.account_id == aid && isPostedLine s l) := by
  intro ls
  induction ls with
  | nil => rfl
  | cons l ls ih =>
    rw [List.filterMap_cons, List.filter_cons]
    cases h1 : (l.account_id == aid) with
    | false =>
      simp only [h1, Bool.false_eq_true, if_false, Bool.false_and]
      exact ih
    | true =>
      simp only [h1, if_true, Bool.true_and]
      cases hf : s.entries.find? (fun e => e.id == l.entry_id) with
      | none =>
        have hpl : isPostedLine s l = false := by
          unfold isPostedLine
          rw [hf]
        simp only [hf, hpl, Bool.false_eq_true, if_false]
        exact ih
      | some e =>
        have hpl : isPostedLine s l = (e.status == "posted") := by
          unfold isPostedLine
          rw [hf]
        cases hst : (e.status == "posted") with
        | true =>
          simp only [hf, hst, if_true, hpl, List.map_cons]
          rw [ih]
        | false =>
          simp only [hf, hst, hpl, Bool.false_eq_true, if_false]
          exact ih

/-- C6 (amended): on every reachable state — built from `add_account`,
`create_entry` and `post_entry`, with no `approve_entry` — the running
balance of the last `get_ledger` row (when one exists) equals the
account's cached `current_balance`; approval breaks the agreement because
`get_ledger` keeps only `posted` entries while the cache keeps the delta
(see the counterexample theorem). -/
theorem ledger_matches_cached_balance (s : State) (hr : Reach s) (aid : Nat)
    (a : Account) (ha : get_account_by_id s aid = some a) :
    (((get_ledger s aid none none).map LedgerRow.running_balance).getLast?).getD
        a.current_balance
      = a.current_balance := by
  have hinv := reach_inv s hr
  have hmem : a ∈ s.accounts := List.mem_of_find?_eq_some ha
  have haid : a.id = aid := by simpa using List.find?_some ha
  have hopen : get_account_opening_balance s aid none = a.opening_balance := by
    unfold get_account_opening_balance
    simp only [ha]
  simp only [get_ledger, ha, Bool.and_true]
  rw [hopen]
  have htx : ((s.lines.filterMap (fun l =>
        if l.account_id == aid then
          match s.entries.find? (fun e => e.id == l.entry_id) with
          | some e => if e.status == "posted" then some (l, e) else none
          | none => none
        else none)).map Prod.fst)
      = s.lines.filter (fun l => l.account_id == aid && isPostedLine s l) :=
    txns_fst s aid s.lines
  have hperm := List.perm_insertionSort (fun x y => ledgerLe x y = true)
    (s.lines.filterMap (fun l =>
      if l.account_id == aid then
        match s.entries.find? (fun e => e.id == l.entry_id) with
        | some e => if e.status == "posted" then some (l, e) else none
        | none => none
      else none))
  have hsum : ((List.insertionSort (fun x y => ledgerLe x y = true)
        (s.lines.filterMap (fun l =>
          if l.account_id == aid then
            match s.entries.find? (fun e => e.id == l.entry_id) with
            | some e => if e.status == "posted" then some (l, e) else none
            | none => none
          else none))).map (fun p => ledgerDelta a.account_category p.1)).sum
      = postedSum s a := by
    rw [(hperm.map _).sum_eq]
    have hmm : (s.lines.filterMap (fun l =>
          if l.account_id == aid then
            match s.entries.find? (fun e => e.id == l.entry_id) with
            | some e => if e.status == "posted" then some (l, e) else none
            | none => none
          else none)).map (fun p => ledgerDelta a.account_category p.1)
        = ((s.lines.filterMap (fun l =>
            if l.account_id == aid then
              match s.entries.find? (fun e => e.id == l.entry_id) with
              | some e => if e.status == "posted" then some (l, e) else none
              | none => none
            else none)).map Prod.fst).map
              (fun l => ledgerDelta a.account_category l) := by
      rw [List.map_map]
      exact List.map_congr_left (fun p _ => rfl)
    rw [hmm, htx]
    unfold postedSum
    rw [← haid]
    exact (List.map_congr_left (fun l hl =>
      ledgerDelta_eq_accountDelta a l
        (hinv.one_sided l (List.mem_of_mem_filter hl)))) ▸ rfl
  by_cases hz : a.opening_balance = 0
  · rw [if_pos hz]
    cases hS : List.insertionSort (fun x y => ledgerLe x y = true)
        (s.lines.filterMap (fun l =>
          if l.account_id == aid then
            match s.entries.find? (fun e => e.id == l.entry_id) with
            | some e => if e.status == "posted" then some (l, e) else none
            | none => none
          else none)) with
    | nil =>
      simp only [ledgerRows, List.map_nil, List.getLast?_nil, Option.getD_none]
    | cons p ts =>
      rw [hS] at hsum
      rw [ledgerRows_last a.account_category _ a.opening_balance (by simp),
        Option.getD_some, hsum, hinv.bal a hmem]
  · rw [if_neg hz]
    rw [List.map_cons, getLast?_cons_getD]
    cases hS : List.insertionSort (fun x y => ledgerLe x y = true)
        (s.lines.filterMap (fun l =>
          if l.account_id == aid then
            match s.entries.find? (fun e => e.id == l.entry_id) with
            | some e => if e.status == "posted" then some (l, e) else none
            | none => none
          else none)) with
    | nil =>
      simp only [ledgerRows, List.map_nil, List.getLast?_nil, Option.getD_none]
      rw [hS] at hperm
      have htxnil : s.lines.filter
          (fun l => l.account_id == aid && isPostedLine s l) = [] := by
        rw [← htx, hperm.symm.eq_nil]
        rfl
      have hps : postedSum s a = 0 := by
        unfold postedSum
        rw [haid, htxnil]
        rfl
      show a.opening_balance = a.current_balance
      rw [hinv.bal a hmem, hps, add_zero]
    | cons p ts =>
      rw [hS] at hsum
      rw [ledgerRows_last a.account_category _ a.opening_balance (by simp),
        Option.getD_some, hsum]
      show a.opening_balance + postedSum s a = a.current_balance
      rw [hinv.bal a hmem]

/-- The posted (never approved) pipeline state's Cash ledger ends on the
cached balance 6000. -/
theorem ledger_matches_cached_balance_witness :
    get_account_by_id SA4 1 = some cashSA4 ∧
      ((get_ledger SA4 1 none none).map LedgerRow.running_balance).getLast?
          = some 6000 ∧
      (((get_ledger SA4 1 none none).map LedgerRow.running_balance).getLast?).getD
          cashSA4.current_balance
        = cashSA4.current_balance :=
  ⟨by decide, by decide,
    ledger_matches_cached_balance SA4 reach_SA4 1 cashSA4 (by decide)⟩

/-- C8 (amended): the first ten sequential roots get codes `"1"` … `"10"`
(the generator increments the lexicographically greatest active root code
as an integer, which matches the documented integer-max rule only that
far); a parent's first child gets the parent's code plus `"01"`; a later
child increments the last active child's two-digit suffix, zero-padded;
and a suffix at 99 makes generation fail. -/
theorem account_code_generation_pattern :
    (T10.accounts.map Account.code) = ["1", "2", "3", "4", "5", "6", "7", "8", "9", "10"] ∧
    (∀ (s : State) (pid : Nat) (parent : Account),
      get_account_by_id s pid = some parent → parent.level ≠ 0 →
      get_child_accounts s pid = [] →
      generate_account_code s (some pid) = some (parent.code ++ "01")) ∧
    (∀ (s : State) (pid : Nat) (parent : Account) (c : String) (k : Nat),
      get_account_by_id s pid = some parent → parent.level ≠ 0 →
      sqlMaxCode ((get_child_accounts s pid).map Account.code) = some c →
      digitsToNat? (lastTwo c).data = some k → k < 99 →
      generate_account_code s (some pid) = some (parent.code ++ zeroPad 2 (k + 1))) ∧
    (∀ (s : State) (pid : Nat) (parent : Account) (c : String) (k : Nat),
      get_account_by_id s pid = some parent →
      sqlMaxCode ((get_child_accounts s pid).map Account.code) = some c →
      digitsToNat? (lastTwo c).data = some k → 99 ≤ k →
      generate_account_code s (some pid) = none) := by
  refine ⟨by decide, ?_, ?_, ?_⟩
  · intro s pid parent hp hlvl hch
    have hl0 : (parent.level == 0) = false := by
      simp only [beq_eq_false_iff_ne, ne_eq]
      exact hlvl
    unfold generate_account_code
    simp only [hp, hch, List.map_nil, hl0, Bool.false_eq_true, if_false]
    rfl
  · intro s pid parent c k hp hlvl hmax hk hk99
    have hl0 : (parent.level == 0) = false := by
      simp only [beq_eq_false_iff_ne, ne_eq]
      exact hlvl
    unfold generate_account_code
    simp only [hp, hmax, hk, Option.map_some', hl0, Bool.false_eq_true, if_false]
    show (if 99 < k + 1 then none
      else some (parent.code ++ zeroPad 2 (k + 1))) = some (parent.code ++ zeroPad 2 (k + 1))
    rw [if_neg (by omega)]
  · intro s pid parent c k hp hmax hk hk99
    unfold generate_account_code
    simp only [hp, hmax, hk, Option.map_some']
    show (if 99 < k + 1 then none
      else some (if (parent.level == 0) = true then Nat.repr (k + 1)
        else parent.code ++ zeroPad 2 (k + 1))) = none
    rw [if_pos (by omega)]

/-- The code-generation pattern at the concrete chain states: first child
of `"1"` is `"101"`, its successor `"102"`, and a `"…99"` child blocks
generation. -/
theorem account_code_generation_pattern_witness :
    generate_account_code B1 (some 1) = some "101" ∧
      generate_account_code B2 (some 1) = some "102" ∧
      generate_account_code S99 (some 1) = none := by
  obtain ⟨-, h2, h3, h4⟩ := account_code_generation_pattern
  refine ⟨?_, ?_, ?_⟩
  · exact Eq.trans (h2 B1 1 c1Acc (by decide) (by decide) (by decide)) (by decide)
  · exact Eq.trans
      (h3 B2 1 c1Acc "101" 1 (by decide) (by decide) (by decide) (by decide) (by decide))
      (by decide)
  · exact h4 S99 1
      ⟨1, none, "1", "p", "p", "general", "asset", 1, "p", true, 0, 0⟩
      "199" 99 (by decide) (by decide) (by decide) (by decide)

/-- C9 (amended): any child under an `analytic` parent is rejected as a
strict no-op; a non-`analytic` child under an `assistant` parent is
rejected as a strict no-op; and an `analytic` child under a `general` or
`assistant` parent is created whenever the names are valid and fresh, the
category is legal, the parent sits above level 9, and code generation
succeeds without colliding with an existing code. -/
theorem hierarchy_rule_enforcement :
    (∀ (s : State) (pid : Nat) (parent : Account) (n1 n2 t c : String) (ob : ℚ),
      get_account_by_id s pid = some parent → parent.account_type = "analytic" →
      add_account s (some pid) n1 n2 t c ob = (none, s)) ∧
    (∀ (s : State) (pid : Nat) (parent : Account) (n1 n2 t c : String) (ob : ℚ),
      get_account_by_id s pid = some parent → parent.account_type = "assistant" →
      t ≠ "analytic" →
      add_account s (some pid) n1 n2 t c ob = (none, s)) ∧
    (∀ (s : State) (pid : Nat) (parent : Account) (n1 n2 c : String) (ob : ℚ)
        (code : String),
      get_account_by_id s pid = some parent →
      (parent.account_type = "general" ∨ parent.account_type = "assistant") →
      n1 ≠ "" → n2 ≠ "" →
      (c = "asset" ∨ c = "liability" ∨ c = "expense" ∨ c = "revenue" ∨ c = "equity") →
      parent.level < 9 →
      validate_name_uniqueness s (some pid) n1 = true →
      generate_account_code s (some pid) = some code →
      (∀ a ∈ s.accounts, a.code ≠ code) →
      (add_account s (some pid) n1 n2 "analytic" c ob).1 = some s.nextAccountId) := by
  refine ⟨?_, ?_, ?_⟩
  · intro s pid parent n1 n2 t c ob hp hana
    have hh : validate_account_hierarchy s pid t = false := by
      unfold validate_account_hierarchy
      simp [hp, hana]
    have hv : validate_account_inputs s (some pid) n1 n2 t c = false := by
      unfold validate_account_inputs
      split_ifs <;> first
        | rfl
        | simp [hp, hh]
    simp [add_account, hv]
  · intro s pid parent n1 n2 t c ob hp hast ht
    have htb : (t == "analytic") = false := by
      simp only [beq_eq_false_iff_ne, ne_eq]
      exact ht
    have hh : validate_account_hierarchy s pid t = false := by
      unfold validate_account_hierarchy
      simp [hp, hast, htb]
    have hv : validate_account_inputs s (some pid) n1 n2 t c = false := by
      unfold validate_account_inputs
      split_ifs <;> first
        | rfl
        | simp [hp, hh]
    simp [add_account, hv]
  · intro s pid parent n1 n2 c ob code hp htype hn1 hn2 hcat hlvl huniq hgen hcode
    have hh : validate_account_hierarchy s pid "analytic" = true := by
      unfold validate_account_hierarchy
      have h9 : ¬(9 ≤ parent.level) := by omega
      rcases htype with h | h <;> simp [hp, h, h9]
    have hv : validate_account_inputs s (some pid) n1 n2 "analytic" c = true := by
      unfold validate_account_inputs
      have hn1b : (n1 == "") = false := by
        simp only [beq_eq_false_iff_ne, ne_eq]; exact hn1
      have hn2b : (n2 == "") = false := by
        simp only [beq_eq_false_iff_ne, ne_eq]; exact hn2
      rcases hcat with h | h | h | h | h <;>
        simp [hn1b, hn2b, h, hp, hh, huniq]
    have hanyc : s.accounts.any (fun a => a.code == code) = false := by
      rw [List.any_eq_false]
      intro a ha
      simp only [beq_iff_eq]
      exact hcode a ha
    unfold add_account
    simp [hv, hgen, hanyc]

/-- The hierarchy rules at concrete states: a child under the analytic
account of `S99` fails, a general child under the assistant root of
`SAst` fails, and an analytic child under the general root of `B1`
succeeds with the fresh id 2. -/
theorem hierarchy_rule_enforcement_witness :
    add_account S99 (some 2) "z" "z" "general" "asset" 0 = (none, S99) ∧
      add_account SAst (some 1) "z" "z" "general" "asset" 0 = (none, SAst) ∧
      (add_account B1 (some 1) "z" "z" "analytic" "asset" 0).1 = some 2 := by
  obtain ⟨h1, h2, h3⟩ := hierarchy_rule_enforcement
  refine ⟨?_, ?_, ?_⟩
  · exact h1 S99 2
      ⟨2, some 1, "199", "q", "q", "analytic", "asset", 2, "p > q", true, 0, 0⟩
      "z" "z" "general" "asset" 0 (by decide) (by decide)
  · exact h2 SAst 1
      ⟨1, none, "1", "h", "h", "assistant", "asset", 1, "h", true, 0, 0⟩
      "z" "z" "general" "asset" 0 (by decide) (by decide) (by decide)
  · exact h3 B1 1 c1Acc "z" "z" "asset" 0 "101" (by decide) (Or.inl (by decide))
      (by decide) (by decide) (Or.inl rfl) (by decide) (by decide) (by decide)
      (by decide)

/-- C9 (counterexample): account 9 of the reachable nine-deep chain is a
`general` parent at level 9; adding an `analytic` child with fresh valid
names still fails (the hierarchy validator rejects parents at level ≥ 9),
refuting that an analytic child under a general parent always succeeds. -/
theorem analytic_child_fails_at_level_nine :
    Reach B9 ∧ (get_account_by_id B9 9).map Account.account_type = some "general" ∧
      (get_account_by_id B9 9).map Account.level = some 9 ∧
      validate_name_uniqueness B9 (some 9) "x" = true ∧
      add_account B9 (some 9) "x" "x" "analytic" "asset" 0 = (none, B9) :=
  ⟨reach_B9, by decide, by decide, by decide, by decide⟩

end Muhasip
